import Mathlib

/-!
# movie-app: pagination, rating upsert, aggregates, request validation, bearer auth

A shallow embedding of the Go sources `database/database.go`, `handlers/movies.go`,
`middleware/auth.go` and `models/models.go`, followed by theorems about them.

Conventions of the embedding

* A Go `string` is a Lean `String`; functions that look inside a string work on
  its list of runes (`String.toList`).
* A Go `int` is an `Int` lying in `[minInt, maxInt]`; additions that the
  source performs on `int` are wrapped with `wrapInt`.
* A `float64` rating is the rational number it denotes (JSON only carries finite
  numbers, and `==` on finite doubles is equality of the denoted numbers).
* A `time.Time` is a natural number of ticks, `0` being the zero time.
* A table is the list of its rows.  The database is taken to be healthy: a
  statement fails only when the server refuses it, because it violates a key
  constraint, carries a value longer than its column (strict SQL mode, the
  server's default), or is not a statement of MySQL's grammar.
-/

set_option linter.dupNamespace false

namespace MovieApp

/-! ## Machine integers -/

/-- Largest value of a 64-bit Go `int`. -/
def maxInt : Int := 2 ^ 63 - 1

/-- Smallest value of a 64-bit Go `int`. -/
def minInt : Int := -(2 ^ 63)

/-- Two's complement wrap-around of an `int` result. -/
def wrapInt (x : Int) : Int := (x + 2 ^ 63) % 2 ^ 64 - 2 ^ 63

/-! ## Data model (`models/models.go`) -/

structure BoxOffice where
  Worldwide : Int
  OpeningWeekendUSA : Int
  Currency : String
  Source : String
  LastUpdated : Nat
deriving DecidableEq

structure Movie where
  ID : String
  Title : String
  ReleaseDate : String
  Genre : String
  Distributor : Option String
  Budget : Option Int
  MpaRating : Option String
  BoxOfficeData : Option String
  CreatedAt : Nat
  UpdatedAt : Nat
  BoxOffice : Option BoxOffice
deriving DecidableEq

structure Rating where
  ID : String
  MovieTitle : String
  RaterID : String
  Rating : ℚ
  CreatedAt : Nat
  UpdatedAt : Nat
deriving DecidableEq

structure RatingAggregate where
  Average : ℚ
  Count : Int
deriving DecidableEq

structure MoviePage where
  Items : List Movie
  NextCursor : Option String
deriving DecidableEq

structure MovieCreate where
  Title : String
  Genre : String
  ReleaseDate : String
  Distributor : Option String
  Budget : Option Int
  MpaRating : Option String
deriving DecidableEq

structure RatingSubmit where
  Rating : ℚ
deriving DecidableEq

/-! ## `strconv` and `fmt` as used by the sources -/

/-- Decimal digit test, `'0' <= c && c <= '9'`. -/
def isDigit (c : Char) : Bool := 48 ≤ c.toNat && c.toNat ≤ 57

/-- Value of a run of decimal digits, most significant first. -/
def decimalValue (ds : List Char) : Nat :=
  ds.foldl (fun acc d => 10 * acc + (d.toNat - 48)) 0

/-- Base-10 `strconv.ParseUint`: a non-empty run of digits.  The range check
against 64 bits is left to `ParseInt`, whose own cutoff is stricter. -/
def ParseUint (s : List Char) : Option Nat :=
  if s = [] then none
  else if s.all isDigit then some (decimalValue s)
  else none

/-- Base-10, 64-bit `strconv.ParseInt`: optional sign, digits, range check.
`none` stands for any returned error (syntax or range). -/
def ParseInt (s : List Char) : Option Int :=
  match s with
  | [] => none
  | c :: cs =>
    let neg := c == '-'
    let body := if c == '+' || c == '-' then cs else c :: cs
    match ParseUint body with
    | none => none
    | some un =>
      if !neg && (2 : Int) ^ 63 ≤ un then none
      else if neg && (2 : Int) ^ 63 < un then none
      else some (if neg then -(un : Int) else un)

/-- On a 64-bit `int`, `strconv.Atoi` accepts what `ParseInt(s, 10, 0)` accepts. -/
def Atoi (s : String) : Option Int := ParseInt s.toList

/-- Rendering of `%d`: a minus sign for negative numbers, then decimal digits. -/
def formatInt (n : Int) : List Char :=
  if n < 0 then '-' :: Nat.toDigits 10 n.natAbs else Nat.toDigits 10 n.natAbs

/-- Result of `fmt.Sprintf("offset_%d", n)`. -/
def SprintfOffset (n : Int) : String := String.mk ("offset_".toList ++ formatInt n)

/-- Scanner limit `hugeWid = 1 << 30`: a scan state reads at most this many runes. -/
def hugeWid : Nat := 2 ^ 30

/-- The table `space` of `fmt/scan.go`. -/
def isSpace (r : Char) : Bool :=
  let n := r.toNat
  (0x09 ≤ n && n ≤ 0x0d) || n == 0x20 || n == 0x85 || n == 0xa0 || n == 0x1680 ||
  (0x2000 ≤ n && n ≤ 0x200a) || (0x2028 ≤ n && n ≤ 0x2029) || n == 0x202f ||
  n == 0x205f || n == 0x3000

/-- Literal part of `(*ss).advance`: every rune of the format must be the next
rune of the input; `none` is the error (mismatch or unexpected EOF). -/
def advance : List Char → List Char → Option (List Char)
  | [], input => some input
  | _ :: _, [] => none
  | f :: fs, c :: cs => if f = c then advance fs cs else none

/-- Model of `(*ss).SkipSpace` for `Sscanf` (newlines are not spaces there): skips
spaces, fails on a newline, stops at the first other rune or at EOF. -/
def SkipSpace : List Char → Option (List Char)
  | [] => some []
  | r :: rs =>
    if r = '\n' then none
    else if isSpace r then SkipSpace rs
    else some (r :: rs)

/-- Model of `(*ss).scanInt` for the verb `d` and a 64-bit `int`: skip spaces, fail at EOF,
accept one sign, require at least one digit, take every following digit, and
hand the token to `ParseInt`. -/
def scanInt (input : List Char) : Option Int :=
  match SkipSpace input with
  | none => none
  | some [] => none
  | some (c :: cs) =>
    let signTok := if c == '+' || c == '-' then [c] else []
    let rest := if c == '+' || c == '-' then cs else c :: cs
    let digits := rest.takeWhile isDigit
    if digits = [] then none else ParseInt (signTok ++ digits)

/-- Result of `fmt.Sscanf(str, "offset_%d", &offset)`: `some v` when `v` is stored into
`offset`, `none` when the scan fails and `offset` is left alone.  Input after
the number is ignored. -/
def SscanfOffset (str : String) : Option Int :=
  match advance "offset_".toList (str.toList.take hugeWid) with
  | none => none
  | some rest =>
    match SkipSpace rest with
    | none => none
    | some rest => scanInt rest

/-! ## `SearchMovies` (`database/database.go`) -/

/-- Errors a statement can return on a healthy database: no row found, a key already
taken, a value longer than its column, a statement the server cannot parse. -/
inductive DbError where
  | ErrRecordNotFound
  | ErrDuplicatedKey
  | ErrDataTooLong
  | ErrSyntax
deriving DecidableEq

/-- The loop body of `SearchMovies` and of `GetMovieByTitle` that fills `BoxOffice`
from the stored blob; a blob that does not decode is dropped.  `unmarshal` is
`json.Unmarshal` into a `BoxOffice`. -/
def attachBoxOffice (unmarshal : String → Option BoxOffice) (m : Movie) : Movie :=
  match m.BoxOfficeData with
  | none => m
  | some blob =>
    match unmarshal blob with
    | some bo => { m with BoxOffice := some bo }
    | none => m

namespace DB

/-- Outcome of `query.Order("created_at DESC").Offset(offset).Limit(limit).Find(&movies)`,
`rows` being the matching movies in that order: the rows delivered, or `none`
when the statement fails.  GORM writes a `LIMIT` only for a non-negative limit
and an `OFFSET` only for a positive offset; MySQL has no `OFFSET` without a
`LIMIT` and refuses such a statement. -/
def Find (rows : List Movie) (offset limit : Int) : Option (List Movie) :=
  if 0 ≤ limit then
    some ((if 0 < offset then rows.drop offset.toNat else rows).take limit.toNat)
  else if 0 < offset then none
  else some rows

/-- The offset `SearchMovies` starts from: `0`, overwritten by a successful scan of a
non-empty cursor. -/
def cursorOffset (cursor : String) : Int :=
  if cursor ≠ "" then
    match SscanfOffset cursor with
    | some v => v
    | none => 0
  else 0

/-- Model of `(*DB).SearchMovies` from the point where the filters have been applied: `rows` is
the list of matching movies ordered by creation time, newest first.  `none` is
the return `nil, err` after a failed query.  Called with `limit >= 1` by `GetMovies`. -/
def SearchMovies (unmarshal : String → Option BoxOffice) (rows : List Movie)
    (limit : Int) (cursor : String) : Option MoviePage :=
  let offset := cursorOffset cursor
  match Find rows offset (wrapInt (limit + 1)) with
  | none => none
  | some found =>
    let movies := found.map (attachBoxOffice unmarshal)
    if (movies.length : Int) > limit then
      some { Items := movies.take limit.toNat
             NextCursor := some (SprintfOffset (wrapInt (offset + limit))) }
    else
      some { Items := movies, NextCursor := none }

end DB

/-- The page size chosen by `GetMovies`: 10 unless the `limit` query parameter is a
positive integer. -/
def queryLimit (limitStr : String) : Int :=
  if limitStr ≠ "" then
    match Atoi limitStr with
    | some limitInt => if limitInt > 0 then limitInt else 10
    | none => 10
  else 10

/-- Client loop of cursor pagination: search, then search again with each returned
cursor.  `fuel` bounds the number of requests; `none` means that it ran out or
that a search failed. -/
def paginate (unmarshal : String → Option BoxOffice) (rows : List Movie) (limit : Int) :
    Nat → String → Option (List MoviePage)
  | 0, _ => none
  | fuel + 1, cursor =>
    match DB.SearchMovies unmarshal rows limit cursor with
    | none => none
    | some page =>
      match page.NextCursor with
      | none => some [page]
      | some next =>
        match paginate unmarshal rows limit fuel next with
        | none => none
        | some pages => some (page :: pages)

/-! ## Ratings (`database/database.go`) -/

namespace DB

/-- The lookup `db.Where("movie_title = ? AND rater_id = ?", ..).First(&existingRating)`; `none` is
`gorm.ErrRecordNotFound`.  `First` orders by primary key; with at most one
rating per pair the order plays no part. -/
def firstRating (ratings : List Rating) (movieTitle raterID : String) : Option Rating :=
  ratings.find? (fun r => r.MovieTitle == movieTitle && r.RaterID == raterID)

/-- The columns of `models.Rating` hold the row: `char(36)` for the key, `size:255` for
the movie title and for the rater.  (The ten half steps the handler lets
through are held exactly by `decimal(3,1)`.) -/
def fitsRating (r : Rating) : Bool :=
  decide (r.ID.length ≤ 36) && decide (r.MovieTitle.length ≤ 255) &&
    decide (r.RaterID.length ≤ 255)

/-- GORM's time stamps on insert: `CreatedAt` and `UpdatedAt` take the current time when
they hold the zero time. -/
def stampCreate (rating : Rating) (now : Nat) : Rating :=
  { rating with
    CreatedAt := if rating.CreatedAt = 0 then now else rating.CreatedAt
    UpdatedAt := if rating.UpdatedAt = 0 then now else rating.UpdatedAt }

/-- GORM's time stamp on update: `UpdatedAt` takes the current time. -/
def stampUpdate (rating : Rating) (now : Nat) : Rating :=
  { rating with UpdatedAt := now }

/-- The insert `db.Create(rating)`: GORM stamps the zero times with the current time; the
insert is refused when a value is longer than its column or when the primary
key is taken.  Returns the error, the struct as GORM leaves it, and the table. -/
def createRating (ratings : List Rating) (rating : Rating) (now : Nat) :
    Option DbError × Rating × List Rating :=
  let stamped := stampCreate rating now
  if !fitsRating stamped then
    (some DbError.ErrDataTooLong, stamped, ratings)
  else if ratings.any (fun r => r.ID == stamped.ID) then
    (some DbError.ErrDuplicatedKey, stamped, ratings)
  else
    (none, stamped, ratings ++ [stamped])

/-- The call `db.Save(rating)`: with a zero primary key GORM inserts; otherwise it updates
every column of the row holding that key, stamping the update time, and
inserts when no row holds the key.  The update is refused when a value is
longer than its column. -/
def saveRating (ratings : List Rating) (rating : Rating) (now : Nat) :
    Option DbError × Rating × List Rating :=
  if rating.ID = "" then createRating ratings rating now
  else
    let stamped := stampUpdate rating now
    if !fitsRating stamped then
      (some DbError.ErrDataTooLong, stamped, ratings)
    else if ratings.any (fun r => r.ID == stamped.ID) then
      (none, stamped, ratings.map (fun r => if r.ID = stamped.ID then stamped else r))
    else
      createRating ratings stamped now

/-- What `UpsertRating` leaves behind: the returned flag and error, the struct
behind the pointer argument, and the ratings table. -/
structure UpsertResult where
  created : Bool
  err : Option DbError
  rating : Rating
  ratings : List Rating
deriving DecidableEq

/-- Model of `(*DB).UpsertRating`.  `uuid` is the value `generateUUID()` returns in this call,
`now` the clock GORM reads. -/
def UpsertRating (ratings : List Rating) (rating : Rating) (uuid : String) (now : Nat) :
    UpsertResult :=
  match firstRating ratings rating.MovieTitle rating.RaterID with
  | none =>
    let rating := { rating with ID := uuid }
    let r := createRating ratings rating now
    { created := true, err := r.1, rating := r.2.1, ratings := r.2.2 }
  | some existingRating =>
    let rating := { rating with ID := existingRating.ID, CreatedAt := existingRating.CreatedAt }
    let r := saveRating ratings rating now
    { created := false, err := r.1, rating := r.2.1, ratings := r.2.2 }

/-- SQL `ROUND(x, 1)` on an exact number: to the nearest tenth, halves away from zero. -/
def sqlRound1 (x : ℚ) : ℚ :=
  if 0 ≤ x then ((Rat.floor (x * 10 + 1 / 2) : Int) : ℚ) / 10
  else -(((Rat.floor (-x * 10 + 1 / 2) : Int) : ℚ) / 10)

/-- SQL `AVG` over a column: `NULL` over no rows, else the sum divided by the count. -/
def sqlAvg (values : List ℚ) : Option ℚ :=
  if values = [] then none else some (values.sum / (values.length : ℚ))

/-- Model of `(*DB).GetRatingAggregate`: `SELECT ROUND(AVG(rating), 1), COUNT(*) .. WHERE movie_title = ?`
scanned into the result struct, a `NULL` average leaving the zero value. -/
def GetRatingAggregate (ratings : List Rating) (movieTitle : String) : RatingAggregate :=
  let selected := ratings.filter (fun r => r.MovieTitle == movieTitle)
  let average : Option ℚ := (sqlAvg (selected.map (fun r => r.Rating))).map sqlRound1
  let count : Int := selected.length
  { Average := average.getD 0, Count := count }

/-- Model of `(*DB).GetMovieByTitle`: the row with that title, its blob decoded; `none` is
`gorm.ErrRecordNotFound`. -/
def GetMovieByTitle (unmarshal : String → Option BoxOffice) (movies : List Movie)
    (title : String) : Option Movie :=
  (movies.find? (fun m => m.Title == title)).map (attachBoxOffice unmarshal)

/-- A text column of the given width holds the value; `NULL` always fits. -/
def fitsColumn (width : Nat) (value : Option String) : Bool :=
  match value with
  | none => true
  | some v => decide (v.length ≤ width)

/-- The columns of `models.Movie` hold the row: `char(36)` key, `size:255` title,
`size:100` genre, `size:255` distributor, `size:10` MPA rating.  (A release
date that `time.Parse` accepted is a date the `date` column takes.) -/
def fitsMovie (m : Movie) : Bool :=
  decide (m.ID.length ≤ 36) && decide (m.Title.length ≤ 255) &&
    decide (m.Genre.length ≤ 100) && fitsColumn 255 m.Distributor &&
    fitsColumn 10 m.MpaRating

/-- Model of `(*DB).CreateMovie`: a generated identifier, then the insert, refused when a value
is longer than its column or when the primary key or the unique title is
taken.  Returns the error, the struct, the table. -/
def CreateMovie (movies : List Movie) (movie : Movie) (uuid : String) (now : Nat) :
    Option DbError × Movie × List Movie :=
  let movie := { movie with ID := uuid }
  let stamped : Movie :=
    { movie with
      CreatedAt := if movie.CreatedAt = 0 then now else movie.CreatedAt
      UpdatedAt := if movie.UpdatedAt = 0 then now else movie.UpdatedAt }
  if !fitsMovie stamped then
    (some DbError.ErrDataTooLong, stamped, movies)
  else if movies.any (fun m => m.ID == stamped.ID || m.Title == stamped.Title) then
    (some DbError.ErrDuplicatedKey, stamped, movies)
  else
    (none, stamped, movies ++ [stamped])

end DB

/-! ## `time.Parse("2006-01-02", value)` -/

/-- Leap-year test `isLeap` of package `time`. -/
def isLeap (year : Nat) : Bool := year % 4 == 0 && (year % 100 != 0 || year % 400 == 0)

/-- Number of days `daysIn` gives for a month of `1..12`. -/
def daysIn (month year : Nat) : Nat :=
  if month == 2 && isLeap year then 29
  else [31, 28, 31, 30, 31, 30, 31, 31, 30, 31, 30, 31].getD (month - 1) 0

/-- Chunk `2006` (`stdLongYear`): four bytes, all digits. -/
def parseLongYear : List Char → Option (Nat × List Char)
  | a :: b :: c :: d :: rest =>
    if isDigit a && isDigit b && isDigit c && isDigit d then
      some (decimalValue [a, b, c, d], rest)
    else none
  | _ => none

/-- The helper `getnum(s, true)`: exactly two digits. -/
def getnum (s : List Char) : Option (Nat × List Char) :=
  match s with
  | a :: b :: rest =>
    if isDigit a && isDigit b then some ((a.toNat - 48) * 10 + (b.toNat - 48), rest)
    else none
  | _ => none

/-- The helper `skip(value, "-")`: the next byte must be the literal. -/
def skip (value : List Char) : Option (List Char) :=
  match value with
  | c :: rest => if c = '-' then some rest else none
  | [] => none

/-- Year, month and day when `time.Parse("2006-01-02", value)` succeeds, `none` when
it returns an error. -/
def timeParse (value : String) : Option (Nat × Nat × Nat) :=
  match parseLongYear value.toList with
  | none => none
  | some (year, v) =>
    match skip v with
    | none => none
    | some v =>
      match getnum v with
      | none => none
      | some (month, v) =>
        if month = 0 || 12 < month then none
        else
          match skip v with
          | none => none
          | some v =>
            match getnum v with
            | none => none
            | some (day, v) =>
              if v ≠ [] then none
              else if day < 1 || day > daysIn month year then none
              else some (year, month, day)

/-! ## Request handlers (`handlers/movies.go`) -/

/-- Status and `code` field of the JSON answer (`code` is empty on success). -/
structure Response where
  status : Nat
  code : String
deriving DecidableEq

def StatusOK : Nat := 200
def StatusCreated : Nat := 201
def StatusBadRequest : Nat := 400
def StatusUnauthorized : Nat := 401
def StatusNotFound : Nat := 404
def StatusUnprocessableEntity : Nat := 422
def StatusInternalServerError : Nat := 500

/-- Binding `c.ShouldBindJSON(&createReq)`: `body` is what the JSON decoder produced (`none`
when the body does not decode, absent strings being empty), then the
`binding` tags are checked: `required,min=1` on the title, `required` on
genre and release date. -/
def bindMovieCreate (body : Option MovieCreate) : Option MovieCreate :=
  match body with
  | none => none
  | some req =>
    if req.Title = "" || req.Title.length < 1 then none
    else if req.Genre = "" then none
    else if req.ReleaseDate = "" then none
    else some req

/-- Binding `c.ShouldBindJSON(&ratingReq)`: decoding, then `required` on the number, which
refuses the zero value. -/
def bindRatingSubmit (body : Option RatingSubmit) : Option RatingSubmit :=
  match body with
  | none => none
  | some req => if req.Rating = 0 then none else some req

/-- The slice `validRatings` of `SubmitRating`. -/
def validRatings : List ℚ := [0.5, 1.0, 1.5, 2.0, 2.5, 3.0, 3.5, 4.0, 4.5, 5.0]

/-- The loop of `SubmitRating` that sets `valid`. -/
def ratingIsValid (rating : ℚ) : Bool := validRatings.any (fun v => decide (rating = v))

namespace MovieHandler

/-- Model of `(*MovieHandler).CreateMovie`: the answer and the movies table when the handler
returns (the detached enrichment is not part of it). -/
def CreateMovie (unmarshal : String → Option BoxOffice) (movies : List Movie)
    (body : Option MovieCreate) (uuid : String) (now : Nat) : Response × List Movie :=
  match bindMovieCreate body with
  | none => ({ status := StatusUnprocessableEntity, code := "BAD_REQUEST" }, movies)
  | some createReq =>
    match timeParse createReq.ReleaseDate with
    | none => ({ status := StatusUnprocessableEntity, code := "BAD_REQUEST" }, movies)
    | some _ =>
      match DB.GetMovieByTitle unmarshal movies createReq.Title with
      | some _ => ({ status := StatusBadRequest, code := "BAD_REQUEST" }, movies)
      | none =>
        let movie : Movie :=
          { ID := "", Title := createReq.Title, ReleaseDate := createReq.ReleaseDate,
            Genre := createReq.Genre, Distributor := createReq.Distributor,
            Budget := createReq.Budget, MpaRating := createReq.MpaRating,
            BoxOfficeData := none, CreatedAt := 0, UpdatedAt := 0, BoxOffice := none }
        let r := DB.CreateMovie movies movie uuid now
        match r.1 with
        | some _ => ({ status := StatusInternalServerError, code := "INTERNAL_ERROR" }, r.2.2)
        | none => ({ status := StatusCreated, code := "" }, r.2.2)

/-- Model of `(*MovieHandler).SubmitRating`: the answer and the ratings table when the handler
returns.  `raterID` is the context value `rater_id`. -/
def SubmitRating (unmarshal : String → Option BoxOffice) (movies : List Movie)
    (ratings : List Rating) (title raterID : String) (body : Option RatingSubmit)
    (uuid : String) (now : Nat) : Response × List Rating :=
  match bindRatingSubmit body with
  | none => ({ status := StatusUnprocessableEntity, code := "BAD_REQUEST" }, ratings)
  | some ratingReq =>
    if !ratingIsValid ratingReq.Rating then
      ({ status := StatusUnprocessableEntity, code := "BAD_REQUEST" }, ratings)
    else
      match DB.GetMovieByTitle unmarshal movies title with
      | none => ({ status := StatusNotFound, code := "NOT_FOUND" }, ratings)
      | some _ =>
        let rating : Rating :=
          { ID := "", MovieTitle := title, RaterID := raterID, Rating := ratingReq.Rating,
            CreatedAt := 0, UpdatedAt := 0 }
        let r := DB.UpsertRating ratings rating uuid now
        match r.err with
        | some _ => ({ status := StatusInternalServerError, code := "INTERNAL_ERROR" }, r.ratings)
        | none =>
          if r.created then ({ status := StatusCreated, code := "" }, r.ratings)
          else ({ status := StatusOK, code := "" }, r.ratings)

end MovieHandler

/-! ## Bearer authentication (`middleware/auth.go`) -/

/-- The request fields `AuthMiddleware` reads; an absent header is the empty string. -/
structure Request where
  Method : String
  Path : String
  Authorization : String
deriving DecidableEq

/-- What a middleware does with the pipeline. -/
inductive Outcome where
  | next
  | abort (status : Nat) (code : String)
deriving DecidableEq

/-- Substring test `strings.Contains(s, substr)`. -/
def stringsContains : List Char → List Char → Bool
  | [], substr => substr.isEmpty
  | c :: cs, substr => substr.isPrefixOf (c :: cs) || stringsContains cs substr

/-- Splitting `strings.Split(s, " ")`, for a one-rune separator. -/
def stringsSplit (sep : Char) : List Char → List (List Char)
  | [] => [[]]
  | c :: cs =>
    if c = sep then [] :: stringsSplit sep cs
    else
      match stringsSplit sep cs with
      | [] => [[c]]
      | p :: ps => (c :: p) :: ps

/-- Model of the handler returned by `AuthMiddleware(authToken)`. -/
def AuthMiddleware (authToken : String) (req : Request) : Outcome :=
  if req.Method = "GET" || req.Path = "/healthz" then Outcome.next
  else if stringsContains req.Path.toList "/ratings".toList then Outcome.next
  else if req.Authorization = "" then Outcome.abort StatusUnauthorized "UNAUTHORIZED"
  else
    let parts := stringsSplit ' ' req.Authorization.toList
    if parts.length ≠ 2 || parts.getD 0 [] ≠ "Bearer".toList
        || parts.getD 1 [] ≠ authToken.toList then
      Outcome.abort StatusUnauthorized "UNAUTHORIZED"
    else Outcome.next

/-! ## Statements of the specification

The definitions of this section follow the words of the specification; the
theorems compare them with the definitions above, which follow the code. -/

/-- Row at an integer position of a list, `none` where the list has no such position. -/
def rowAt (rows : List Movie) (i : Int) : Option Movie :=
  if i < 0 then none else rows[i.toNat]?

/-- The page the specification promises for the ordered rows `rows`, the decoded
`offset` and the `limit`: when more than `limit` rows exist from `offset` on, the rows
at positions `offset .. offset+limit-1` and the next cursor `offset_<offset+limit>`;
otherwise all remaining rows and no cursor. -/
def specPage (rows : List Movie) (offset limit : Int) : MoviePage :=
  let remaining := rows.drop offset.toNat
  if limit < (remaining.length : Int) then
    { Items := (List.range limit.toNat).filterMap
        (fun (k : Nat) => rowAt rows (offset + (k : Int)))
      NextCursor := some (String.mk ("offset_".toList ++ formatInt (offset + limit))) }
  else
    { Items := remaining, NextCursor := none }

/-- At most one rating per (movie title, rater identity) pair. -/
def PairUnique (ratings : List Rating) : Prop :=
  (ratings.map (fun r => (r.MovieTitle, r.RaterID))).Nodup

/-- The primary key of the ratings table: no two rows share an identifier. -/
def KeyUnique (ratings : List Rating) : Prop :=
  (ratings.map (fun r => r.ID)).Nodup

instance (ratings : List Rating) : Decidable (PairUnique ratings) :=
  inferInstanceAs (Decidable (List.Nodup _))

instance (ratings : List Rating) : Decidable (KeyUnique ratings) :=
  inferInstanceAs (Decidable (List.Nodup _))

/-- Rating stores reachable from the empty store by a sequence of `UpsertRating` calls,
whatever rating is submitted, whatever identifier is generated and whatever
the clock reads. -/
inductive Reachable : List Rating → Prop where
  | empty : Reachable []
  | upsert (ratings : List Rating) (rating : Rating) (uuid : String) (now : Nat) :
      Reachable ratings → Reachable (DB.UpsertRating ratings rating uuid now).ratings

/-- One of the ten values 0.5, 1.0, 1.5, ..., 5.0: a half-integer `k/2` with `1 ≤ k ≤ 10`. -/
def IsHalfStep (v : ℚ) : Prop := ∃ k : Nat, 1 ≤ k ∧ k ≤ 10 ∧ v = (k : ℚ) / 2

/-- Arithmetic mean of a list of values. -/
def mean (values : List ℚ) : ℚ := values.sum / (values.length : ℚ)

/-- The number `r` is `x` rounded to one decimal place: `r` is a whole number of tenths
and lies within half a tenth of `x`. -/
def IsRoundedToTenth (x r : ℚ) : Prop :=
  (∃ z : Int, r = (z : ℚ) / 10) ∧ |r - x| ≤ 1 / 20

/-- Days of a month of the Gregorian calendar; a year is a leap year when it is
divisible by 4 and not by 100, or divisible by 400. -/
def calendarDays (year month : Nat) : Nat :=
  match month with
  | 1 => 31
  | 2 => if (year % 4 = 0 ∧ year % 100 ≠ 0) ∨ year % 400 = 0 then 29 else 28
  | 3 => 31
  | 4 => 30
  | 5 => 31
  | 6 => 30
  | 7 => 31
  | 8 => 31
  | 9 => 30
  | 10 => 31
  | 11 => 30
  | 12 => 31
  | _ => 0

/-- A number below 100 written with two digits. -/
def twoDigits (n : Nat) : List Char := [Nat.digitChar (n / 10), Nat.digitChar (n % 10)]

/-- A number below 10000 written with four digits. -/
def fourDigits (n : Nat) : List Char :=
  [Nat.digitChar (n / 1000), Nat.digitChar (n / 100 % 10), Nat.digitChar (n / 10 % 10),
   Nat.digitChar (n % 10)]

/-- A valid calendar date written `YYYY-MM-DD`: a year of four digits, a month from 1 to
12 and a day of that month, each written with leading zeros. -/
def IsCalendarDate (s : String) : Prop :=
  ∃ y m d : Nat, y ≤ 9999 ∧ 1 ≤ m ∧ m ≤ 12 ∧ 1 ≤ d ∧ d ≤ calendarDays y m ∧
    s.toList = fourDigits y ++ '-' :: (twoDigits m ++ '-' :: twoDigits d)

/-- A create request passes the checks of the handler: title and genre present, release
date a valid calendar date. -/
def ValidCreate (req : MovieCreate) : Prop :=
  req.Title ≠ "" ∧ req.Genre ≠ "" ∧ IsCalendarDate req.ReleaseDate

/-- A movie row with the given key, title and creation time, for worked examples. -/
def exampleMovie (id title : String) (created : Nat) : Movie :=
  { ID := id, Title := title, ReleaseDate := "2001-01-01", Genre := "drama",
    Distributor := none, Budget := none, MpaRating := none, BoxOfficeData := none,
    CreatedAt := created, UpdatedAt := created, BoxOffice := none }

/-! ## Decimal rendering and scanning -/

theorem digitChar_toNat (k : Nat) (hk : k < 10) : (Nat.digitChar k).toNat - 48 = k := by
  interval_cases k <;> rfl

theorem digitChar_isDigit (k : Nat) (hk : k < 10) : isDigit (Nat.digitChar k) = true := by
  interval_cases k <;> rfl

theorem foldl_decimal (ds : List Char) (a : Nat) :
    ds.foldl (fun acc d => 10 * acc + (d.toNat - 48)) a = a * 10 ^ ds.length + decimalValue ds := by
  induction ds generalizing a with
  | nil => simp [decimalValue]
  | cons d ds ih =>
    simp only [List.foldl_cons, decimalValue, List.length_cons]
    rw [ih, ih (10 * 0 + (d.toNat - 48))]
    ring

theorem decimalValue_cons (d : Char) (ds : List Char) :
    decimalValue (d :: ds) = (d.toNat - 48) * 10 ^ ds.length + decimalValue ds := by
  have h := foldl_decimal ds (10 * 0 + (d.toNat - 48))
  simpa [decimalValue] using h

theorem decimalValue_toDigitsCore (fuel n : Nat) (ds : List Char) (h : n < fuel) :
    decimalValue (Nat.toDigitsCore 10 fuel n ds) = n * 10 ^ ds.length + decimalValue ds := by
  induction fuel generalizing n ds with
  | zero => omega
  | succ fuel ih =>
    simp only [Nat.toDigitsCore]
    have hd := digitChar_toNat (n % 10) (Nat.mod_lt _ (by decide))
    split
    · next h0 =>
      rw [decimalValue_cons, hd]
      have : n % 10 = n := by omega
      rw [this]
    · next h0 =>
      rw [ih (n / 10) _ (by omega), decimalValue_cons, hd, List.length_cons, pow_succ]
      have hn : n = 10 * (n / 10) + n % 10 := (Nat.div_add_mod n 10).symm
      generalize 10 ^ ds.length = p
      nth_rewrite 3 [hn]
      ring

theorem decimalValue_toDigits (n : Nat) : decimalValue (Nat.toDigits 10 n) = n := by
  have h := decimalValue_toDigitsCore (n + 1) n [] (by omega)
  simpa [Nat.toDigits, decimalValue] using h

theorem toDigitsCore_isDigit (fuel n : Nat) (ds : List Char)
    (hds : ∀ c ∈ ds, isDigit c = true) :
    ∀ c ∈ Nat.toDigitsCore 10 fuel n ds, isDigit c = true := by
  induction fuel generalizing n ds with
  | zero => simpa [Nat.toDigitsCore] using hds
  | succ fuel ih =>
    have hd := digitChar_isDigit (n % 10) (Nat.mod_lt _ (by decide))
    have hcons : ∀ c ∈ Nat.digitChar (n % 10) :: ds, isDigit c = true := by
      intro c hc
      rcases List.mem_cons.mp hc with rfl | hc
      · exact hd
      · exact hds c hc
    simp only [Nat.toDigitsCore]
    split
    · exact hcons
    · exact ih _ _ hcons

theorem toDigits_isDigit (n : Nat) : ∀ c ∈ Nat.toDigits 10 n, isDigit c = true :=
  toDigitsCore_isDigit (n + 1) n [] (by simp)

theorem toDigitsCore_ne_nil (fuel n : Nat) (ds : List Char) (h : 0 < fuel) :
    Nat.toDigitsCore 10 fuel n ds ≠ [] := by
  induction fuel generalizing n ds with
  | zero => omega
  | succ fuel ih =>
    simp only [Nat.toDigitsCore]
    split
    · simp
    · next h0 =>
      cases fuel with
      | zero => simp [Nat.toDigitsCore]
      | succ f => exact ih _ _ (by omega)

theorem toDigits_ne_nil (n : Nat) : Nat.toDigits 10 n ≠ [] :=
  toDigitsCore_ne_nil (n + 1) n [] (by omega)

theorem toDigits_length_le (n : Nat) (h : n < 10 ^ 20) : (Nat.toDigits 10 n).length ≤ 20 :=
  Nat.toDigitsCore_length 10 (by decide) (n + 1) n 20 h (by decide)

theorem advance_append (p rest : List Char) : advance p (p ++ rest) = some rest := by
  induction p with
  | nil => cases rest <;> rfl
  | cons c p ih => simp [advance, ih]

theorem isDigit_bounds (c : Char) (h : isDigit c = true) : 48 ≤ c.toNat ∧ c.toNat ≤ 57 := by
  simpa [isDigit] using h

theorem isDigit_not_space (c : Char) (h : isDigit c = true) : isSpace c = false := by
  have hb := isDigit_bounds c h
  simp only [isSpace, Bool.or_eq_false_iff, Bool.and_eq_false_iff, decide_eq_false_iff_not,
    beq_eq_false_iff_ne, ne_eq]
  omega

theorem isDigit_ne (c d : Char) (h : isDigit c = true) (hd : isDigit d = false) : c ≠ d := by
  rintro rfl
  rw [h] at hd
  exact Bool.noConfusion hd

theorem SkipSpace_digit (c : Char) (cs : List Char) (h : isDigit c = true) :
    SkipSpace (c :: cs) = some (c :: cs) := by
  have h1 : c ≠ '\n' := isDigit_ne c _ h (by decide)
  simp [SkipSpace, h1, isDigit_not_space c h]

theorem takeWhile_digits (ds : List Char) (h : ∀ c ∈ ds, isDigit c = true) :
    ds.takeWhile isDigit = ds := by
  induction ds with
  | nil => rfl
  | cons d ds ih =>
    have hd := h d (List.mem_cons_self _ _)
    simp [List.takeWhile, hd, ih (fun c hc => h c (List.mem_cons_of_mem _ hc))]

theorem ParseUint_digits (ds : List Char) (hne : ds ≠ []) (h : ∀ c ∈ ds, isDigit c = true) :
    ParseUint ds = some (decimalValue ds) := by
  have hall : ds.all isDigit = true := List.all_eq_true.mpr h
  simp [ParseUint, hne, hall]

theorem scanInt_nonneg (m : Nat) (h : (m : Int) ≤ maxInt) :
    scanInt (Nat.toDigits 10 m) = some (m : Int) := by
  have hdig := toDigits_isDigit m
  have hne := toDigits_ne_nil m
  have hval := decimalValue_toDigits m
  cases hds : Nat.toDigits 10 m with
  | nil => exact absurd hds hne
  | cons c cs =>
    rw [hds] at hdig hne hval
    have hc := hdig c (List.mem_cons_self _ _)
    have hp : c ≠ '+' := isDigit_ne c _ hc (by decide)
    have hm : c ≠ '-' := isDigit_ne c _ hc (by decide)
    have htw := takeWhile_digits (c :: cs) hdig
    have hpu := ParseUint_digits (c :: cs) hne hdig
    have hsign : (c == '+' || c == '-') = false := by simp [hp, hm]
    have hneg : (c == '-') = false := by simp [hm]
    simp only [maxInt] at h
    have h3 : ¬ ((2 : Int) ^ 63 ≤ (m : Int)) := by omega
    simp only [scanInt, SkipSpace_digit c cs hc, hsign, Bool.false_eq_true, if_false, htw,
      List.nil_append, ParseInt, hpu, hval]
    simp only [hneg, Bool.not_false, Bool.true_and, Bool.false_and, decide_eq_true_eq, h3,
      Bool.false_eq_true, if_false, hne]

theorem scanInt_neg (m : Nat) (h0 : 0 < m) (h : (m : Int) ≤ 2 ^ 63) :
    scanInt ('-' :: Nat.toDigits 10 m) = some (-(m : Int)) := by
  have hdig := toDigits_isDigit m
  have hne := toDigits_ne_nil m
  have hval := decimalValue_toDigits m
  have htw := takeWhile_digits _ hdig
  have hpu := ParseUint_digits _ hne hdig
  have hs : SkipSpace ('-' :: Nat.toDigits 10 m) = some ('-' :: Nat.toDigits 10 m) := by
    simp [SkipSpace, isSpace]
  simp only [scanInt, hs]
  have h3 : ¬ ((2 : Int) ^ 63 < (m : Int)) := by omega
  simp [htw, hne, ParseInt, hpu, hval]
  omega

theorem formatInt_length (n : Int) (h1 : minInt ≤ n) (h2 : n ≤ maxInt) :
    (formatInt n).length ≤ 21 := by
  simp only [minInt, maxInt] at h1 h2
  have hb : n.natAbs < 10 ^ 20 := by omega
  have hl := toDigits_length_le n.natAbs hb
  unfold formatInt
  split
  · simp only [List.length_cons]; omega
  · omega

theorem scanInt_formatInt (n : Int) (h1 : minInt ≤ n) (h2 : n ≤ maxInt) :
    scanInt (formatInt n) = some n := by
  simp only [minInt] at h1
  unfold formatInt
  split
  · next hneg =>
    have := scanInt_neg n.natAbs (by omega) (by omega)
    rw [this]
    congr 1
    omega
  · next hpos =>
    have := scanInt_nonneg n.natAbs (by omega)
    rw [this]
    congr 1
    omega

theorem SkipSpace_formatInt (n : Int) : SkipSpace (formatInt n) = some (formatInt n) := by
  unfold formatInt
  split
  · simp [SkipSpace, isSpace]
  · have hdig := toDigits_isDigit n.natAbs
    cases hds : Nat.toDigits 10 n.natAbs with
    | nil => exact absurd hds (toDigits_ne_nil _)
    | cons c cs =>
      rw [hds] at hdig
      exact SkipSpace_digit c cs (hdig c (List.mem_cons_self _ _))

theorem SscanfOffset_SprintfOffset (n : Int) (h1 : minInt ≤ n) (h2 : n ≤ maxInt) :
    SscanfOffset (SprintfOffset n) = some n := by
  have hlen := formatInt_length n h1 h2
  have htake : ("offset_".toList ++ formatInt n).take hugeWid = "offset_".toList ++ formatInt n := by
    apply List.take_of_length_le
    simp only [List.length_append, hugeWid]
    have : "offset_".toList.length = 7 := by decide
    omega
  simp only [SscanfOffset, SprintfOffset]
  rw [show (String.mk ("offset_".toList ++ formatInt n)).toList
      = "offset_".toList ++ formatInt n from rfl, htake, advance_append]
  simp only [SkipSpace_formatInt, scanInt_formatInt n h1 h2]

theorem cursorOffset_SprintfOffset (n : Int) (h1 : minInt ≤ n) (h2 : n ≤ maxInt) :
    DB.cursorOffset (SprintfOffset n) = n := by
  have hne : SprintfOffset n ≠ "" := by
    intro h
    have := congrArg String.toList h
    simp [SprintfOffset] at this
  simp [DB.cursorOffset, hne, SscanfOffset_SprintfOffset n h1 h2]

/-! ## Pagination -/

theorem wrapInt_of_bounds (x : Int) (h1 : minInt ≤ x) (h2 : x ≤ maxInt) : wrapInt x = x := by
  simp only [minInt, maxInt] at h1 h2
  unfold wrapInt
  omega

theorem rowsAt_range (rows : List Movie) (n l : Nat) :
    (List.range l).filterMap (fun (k : Nat) => rowAt rows ((n : Int) + (k : Int))) =
      (rows.drop n).take l := by
  induction l with
  | zero => rfl
  | succ l ih =>
    rw [List.range_succ, List.filterMap_append, ih, List.take_succ]
    congr 1
    have hpos : ¬ ((n : Int) + (l : Int) < 0) := by omega
    have hidx : ((n : Int) + (l : Int)).toNat = n + l := by omega
    simp only [List.filterMap_cons, List.filterMap_nil, rowAt, hpos, if_false, hidx,
      List.getElem?_drop]
    cases rows[n + l]? <;> rfl

/-- The page computed by `SearchMovies` from a non-negative offset, in closed form, when
`limit + 1` does not wrap around or the offset is zero. -/
theorem SearchMovies_of_offset (unmarshal : String → Option BoxOffice) (rows : List Movie)
    (limit : Int) (cursor : String) (n : Nat) (hoff : DB.cursorOffset cursor = n)
    (hlim : 1 ≤ limit) (hmax : limit ≤ maxInt) (hlen : (rows.length : Int) ≤ maxInt)
    (hwrap : limit < maxInt ∨ n = 0) :
    DB.SearchMovies unmarshal rows limit cursor =
      some (if limit < ((rows.drop n).length : Int) then
        { Items := ((rows.drop n).take limit.toNat).map (attachBoxOffice unmarshal)
          NextCursor := some (SprintfOffset (n + limit)) }
      else
        { Items := (rows.drop n).map (attachBoxOffice unmarshal), NextCursor := none }) := by
  have hstart : (if 0 < (n : Int) then rows.drop (n : Int).toNat else rows) = rows.drop n := by
    split
    · simp
    · have : n = 0 := by omega
      subst this
      simp
  have hfind : ∀ lim : Int, 0 ≤ lim →
      DB.Find rows (n : Int) lim = some ((rows.drop n).take lim.toNat) := by
    intro lim h
    unfold DB.Find
    rw [if_pos h, hstart]
  have hdl : (rows.drop n).length = rows.length - n := List.length_drop _ _
  simp only [maxInt] at hmax hlen hwrap
  by_cases hlt : limit < ((rows.drop n).length : Int)
  · have hw : wrapInt (limit + 1) = limit + 1 :=
      wrapInt_of_bounds _ (by simp only [minInt]; omega) (by simp only [maxInt]; omega)
    have hw2 : wrapInt ((n : Int) + limit) = n + limit := by
      apply wrapInt_of_bounds
      · simp only [minInt]; omega
      · simp only [maxInt]; omega
    have h0 : (0 : Int) ≤ limit + 1 := by omega
    have hl1 : ((rows.drop n).take (limit + 1).toNat).length = (limit + 1).toNat := by
      rw [List.length_take]
      omega
    have h2 : ((limit + 1).toNat : Int) > limit := by omega
    simp only [DB.SearchMovies, hoff, hw, hfind _ h0, List.length_map, hl1, hw2, h2, if_true,
      hlt]
    rw [← List.map_take, List.take_take]
    congr 4
    omega
  · rw [if_neg hlt]
    by_cases hneg : 0 ≤ wrapInt (limit + 1)
    · have hw : wrapInt (limit + 1) = limit + 1 := by
        unfold wrapInt at hneg ⊢
        omega
      rw [hw] at hneg
      have hfull : (rows.drop n).take (limit + 1).toNat = rows.drop n := by
        apply List.take_of_length_le
        omega
      simp only [DB.SearchMovies, hoff, hw, hfind _ hneg, hfull, List.length_map]
      rw [if_neg (by omega)]
    · have hn : n = 0 := by
        rcases hwrap with h | h
        · exfalso
          apply hneg
          unfold wrapInt
          omega
        · exact h
      subst hn
      have hfind0 : DB.Find rows ((0 : Nat) : Int) (wrapInt (limit + 1)) = some rows := by
        unfold DB.Find
        rw [if_neg hneg, if_neg (by simp)]
      simp only [DB.SearchMovies, hoff, hfind0, List.length_map, List.drop_zero]
      rw [if_neg (by omega)]

/-- With the largest `int` as limit and a positive offset the query is refused and
`SearchMovies` returns the error. -/
theorem SearchMovies_refused (unmarshal : String → Option BoxOffice) (rows : List Movie)
    (cursor : String) (hoff : 0 < DB.cursorOffset cursor) :
    DB.SearchMovies unmarshal rows maxInt cursor = none := by
  have hw : ¬ (0 ≤ wrapInt (maxInt + 1)) := by decide
  simp only [DB.SearchMovies, DB.Find, hw, if_false, hoff, if_true]

/-- C1 (amended): for every ordered list of matching movies, every cursor whose
decoded offset is not negative and every limit of at least 1 that is below the
largest `int` (or any limit of at least 1 when the offset is 0), `SearchMovies`
returns the page of the specification: with more than `limit` rows left from the
offset, exactly the `limit` rows at `offset .. offset+limit-1` and the cursor
`offset_<offset+limit>`; otherwise all remaining rows, at most `limit`, and no cursor. -/
theorem SearchMovies_page (unmarshal : String → Option BoxOffice) (rows : List Movie)
    (limit : Int) (cursor : String) (hoff : 0 ≤ DB.cursorOffset cursor)
    (hlim : 1 ≤ limit) (hmax : limit ≤ maxInt) (hlen : (rows.length : Int) ≤ maxInt)
    (hwrap : limit < maxInt ∨ DB.cursorOffset cursor = 0) :
    DB.SearchMovies unmarshal rows limit cursor =
      some (specPage (rows.map (attachBoxOffice unmarshal)) (DB.cursorOffset cursor) limit) ∧
    ((specPage (rows.map (attachBoxOffice unmarshal)) (DB.cursorOffset cursor)
      limit).Items.length : Int) ≤ limit ∧
    (limit < ((rows.drop (DB.cursorOffset cursor).toNat).length : Int) →
      ((specPage (rows.map (attachBoxOffice unmarshal)) (DB.cursorOffset cursor)
        limit).Items.length : Int) = limit) := by
  obtain ⟨n, hn⟩ := Int.eq_ofNat_of_zero_le hoff
  have hwrap2 : limit < maxInt ∨ n = 0 := by
    rcases hwrap with h | h
    · exact Or.inl h
    · right
      rw [hn] at h
      exact_mod_cast h
  rw [SearchMovies_of_offset unmarshal rows limit cursor n hn hlim hmax hlen hwrap2, hn]
  obtain ⟨l, rfl⟩ := Int.eq_ofNat_of_zero_le (by omega : 0 ≤ limit)
  have hd : (rows.drop n).length = rows.length - n := List.length_drop _ _
  have hspec : specPage (rows.map (attachBoxOffice unmarshal)) (n : Int) (l : Int) =
      if (l : Int) < ((rows.drop n).length : Int) then
        { Items := ((rows.drop n).take (l : Int).toNat).map (attachBoxOffice unmarshal)
          NextCursor := some (SprintfOffset (n + l)) }
      else
        { Items := (rows.drop n).map (attachBoxOffice unmarshal), NextCursor := none } := by
    simp only [specPage, Int.toNat_ofNat, rowsAt_range, List.length_drop, List.length_map,
      List.map_take, List.map_drop]
    rfl
  rw [hspec]
  refine ⟨rfl, ?_, ?_⟩
  · split
    · simp only [Int.toNat_ofNat, List.length_map, List.length_take]
      omega
    · next hlt =>
      simp only [List.length_map]
      omega
  · intro hlt
    simp only [Int.toNat_ofNat] at hlt
    rw [if_pos hlt]
    simp only [Int.toNat_ofNat, List.length_map, List.length_take]
    omega

/-- C1 (witness): three rows, limit 2, cursor `offset_1`. -/
theorem SearchMovies_page_witness :
    DB.SearchMovies (fun _ => none)
        [exampleMovie "1" "A" 3, exampleMovie "2" "B" 2, exampleMovie "3" "C" 1] 2 "offset_1" =
      some (specPage
        ([exampleMovie "1" "A" 3, exampleMovie "2" "B" 2, exampleMovie "3" "C" 1].map
          (attachBoxOffice (fun _ => none)))
        (DB.cursorOffset "offset_1") 2) :=
  (SearchMovies_page (fun _ => none)
    [exampleMovie "1" "A" 3, exampleMovie "2" "B" 2, exampleMovie "3" "C" 1] 2 "offset_1"
    (by decide) (by decide) (by decide) (by decide) (Or.inl (by decide))).1

/-- C1 (counterexample): the cursor `offset_-5` decodes to the offset `-5`; over three rows and
with limit 2 the page holds the rows at positions 0 and 1, which are not the
rows at positions `-5` and `-4` (there are none).  And with the largest `int` as
limit and the cursor `offset_1`, `limit + 1` wraps around, the query is refused and
no page is returned. -/
theorem SearchMovies_page_negative_offset :
    DB.cursorOffset "offset_-5" = -5 ∧
    DB.SearchMovies (fun _ => none)
      [exampleMovie "1" "A" 3, exampleMovie "2" "B" 2, exampleMovie "3" "C" 1] 2 "offset_-5" =
      some { Items := [exampleMovie "1" "A" 3, exampleMovie "2" "B" 2]
             NextCursor := some "offset_-3" } ∧
    specPage
      ([exampleMovie "1" "A" 3, exampleMovie "2" "B" 2, exampleMovie "3" "C" 1].map
        (attachBoxOffice (fun _ => none))) (DB.cursorOffset "offset_-5") 2 =
      { Items := [], NextCursor := some "offset_-3" } ∧
    DB.SearchMovies (fun _ => none)
      [exampleMovie "1" "A" 3, exampleMovie "2" "B" 2, exampleMovie "3" "C" 1] 2 "offset_-5" ≠
      some (specPage
        ([exampleMovie "1" "A" 3, exampleMovie "2" "B" 2, exampleMovie "3" "C" 1].map
          (attachBoxOffice (fun _ => none))) (DB.cursorOffset "offset_-5") 2) ∧
    DB.cursorOffset "offset_1" = 1 ∧
    DB.SearchMovies (fun _ => none)
      [exampleMovie "1" "A" 3, exampleMovie "2" "B" 2, exampleMovie "3" "C" 1] maxInt
      "offset_1" = none ∧
    specPage
      ([exampleMovie "1" "A" 3, exampleMovie "2" "B" 2, exampleMovie "3" "C" 1].map
        (attachBoxOffice (fun _ => none))) (DB.cursorOffset "offset_1") maxInt =
      { Items := [exampleMovie "2" "B" 2, exampleMovie "3" "C" 1], NextCursor := none } := by
  refine ⟨by decide, by decide, by decide, by decide, by decide, by decide, by decide⟩

theorem ParseInt_bounds (s : List Char) (v : Int) (h : ParseInt s = some v) :
    minInt ≤ v ∧ v ≤ maxInt := by
  simp only [minInt, maxInt]
  unfold ParseInt at h
  split at h
  · exact absurd h (by simp)
  · next c cs =>
    simp only at h
    split at h
    · exact absurd h (by simp)
    · next un hun =>
      by_cases hneg : (c == '-') = true
      · simp only [hneg, Bool.not_true, Bool.false_and, Bool.false_eq_true, if_false,
          Bool.true_and, decide_eq_true_eq, if_true] at h
        split at h
        · exact absurd h (by simp)
        · next hle =>
          have hv : v = -(un : Int) := by simpa using h.symm
          omega
      · simp only [hneg, Bool.not_false, Bool.true_and, decide_eq_true_eq, Bool.false_and,
          Bool.false_eq_true, if_false] at h
        split at h
        · exact absurd h (by simp)
        · next hle =>
          have hv : v = (un : Int) := by simpa using h.symm
          omega

theorem scanInt_bounds (input : List Char) (v : Int) (h : scanInt input = some v) :
    minInt ≤ v ∧ v ≤ maxInt := by
  unfold scanInt at h
  split at h
  · exact absurd h (by simp)
  · exact absurd h (by simp)
  · simp only at h
    split at h <;> split at h <;>
      first
        | exact ParseInt_bounds _ v h
        | exact absurd h (Option.noConfusion)

theorem SscanfOffset_bounds (cursor : String) (v : Int) (h : SscanfOffset cursor = some v) :
    minInt ≤ v ∧ v ≤ maxInt := by
  unfold SscanfOffset at h
  split at h
  · exact absurd h (by simp)
  · split at h
    · exact absurd h (by simp)
    · exact scanInt_bounds _ v h

theorem cursorOffset_bounds (cursor : String) :
    minInt ≤ DB.cursorOffset cursor ∧ DB.cursorOffset cursor ≤ maxInt := by
  unfold DB.cursorOffset
  split
  · split
    · next v hv => exact SscanfOffset_bounds cursor v hv
    · exact ⟨by decide, by decide⟩
  · exact ⟨by decide, by decide⟩

theorem queryLimit_bounds (limitStr : String) :
    1 ≤ queryLimit limitStr ∧ queryLimit limitStr ≤ maxInt := by
  unfold queryLimit
  split
  · split
    · next limitInt hparse =>
      split
      · next hpos => exact ⟨by omega, (ParseInt_bounds _ _ hparse).2⟩
      · exact ⟨by decide, by decide⟩
    · exact ⟨by decide, by decide⟩
  · exact ⟨by decide, by decide⟩

theorem paginate_last (unmarshal : String → Option BoxOffice) (rows : List Movie)
    (limit : Int) (fuel : Nat) (cursor : String) (page : MoviePage)
    (hpage : DB.SearchMovies unmarshal rows limit cursor = some page)
    (h : page.NextCursor = none) :
    paginate unmarshal rows limit (fuel + 1) cursor = some [page] := by
  rw [paginate]
  simp only [hpage, h]

theorem paginate_more (unmarshal : String → Option BoxOffice) (rows : List Movie)
    (limit : Int) (fuel : Nat) (cursor next : String) (page : MoviePage)
    (pages : List MoviePage)
    (hpage : DB.SearchMovies unmarshal rows limit cursor = some page)
    (h : page.NextCursor = some next)
    (hrest : paginate unmarshal rows limit fuel next = some pages) :
    paginate unmarshal rows limit (fuel + 1) cursor = some (page :: pages) := by
  rw [paginate]
  simp only [hpage, h, hrest]

theorem paginate_from (unmarshal : String → Option BoxOffice) (rows : List Movie)
    (limit : Int) (hlim : 1 ≤ limit) (hmax : limit ≤ maxInt)
    (hlen : (rows.length : Int) ≤ maxInt) :
    ∀ (m n : Nat) (cursor : String), rows.length - n ≤ m → DB.cursorOffset cursor = n →
      (limit < maxInt ∨ n = 0) →
      ∃ pages : List MoviePage,
        (∀ fuel, m < fuel → paginate unmarshal rows limit fuel cursor = some pages) ∧
        (∃ last, pages.getLast? = some last ∧ last.NextCursor = none) ∧
        (∀ p ∈ pages.dropLast, (p.Items.length : Int) = limit ∧ p.NextCursor ≠ none) ∧
        (pages.map (fun p => p.Items)).flatten =
          (rows.drop n).map (attachBoxOffice unmarshal) := by
  intro m
  induction m with
  | zero =>
    intro n cursor hm hc hwrap
    have hpage := SearchMovies_of_offset unmarshal rows limit cursor n hc hlim hmax hlen hwrap
    have hd : (rows.drop n).length = rows.length - n := List.length_drop _ _
    rw [if_neg (by omega)] at hpage
    refine ⟨[{ Items := (rows.drop n).map (attachBoxOffice unmarshal), NextCursor := none }],
      ?_, ⟨_, rfl, rfl⟩, ?_, ?_⟩
    · intro fuel hf
      obtain ⟨f, rfl⟩ := Nat.exists_eq_succ_of_ne_zero (by omega : fuel ≠ 0)
      exact paginate_last unmarshal rows limit f cursor _ hpage rfl
    · intro p hp
      exact absurd hp (List.not_mem_nil p)
    · simp only [List.map_cons, List.map_nil, List.flatten_cons, List.flatten_nil,
        List.append_nil]
  | succ m ih =>
    intro n cursor hm hc hwrap
    have hpage := SearchMovies_of_offset unmarshal rows limit cursor n hc hlim hmax hlen hwrap
    have hd : (rows.drop n).length = rows.length - n := List.length_drop _ _
    by_cases hlt : limit < ((rows.drop n).length : Int)
    · rw [if_pos hlt] at hpage
      obtain ⟨l, rfl⟩ := Int.eq_ofNat_of_zero_le (by omega : 0 ≤ limit)
      have hbelow : (l : Int) < maxInt := by
        simp only [maxInt] at hlen ⊢
        omega
      have hnext : DB.cursorOffset (SprintfOffset ((n : Int) + (l : Int))) =
          ((n + l : Nat) : Int) := by
        rw [cursorOffset_SprintfOffset]
        · push_cast; rfl
        · simp only [minInt]; omega
        · simp only [maxInt] at hlen ⊢; omega
      obtain ⟨pages, hrun, ⟨last, hlast, hnone⟩, hfull, hjoin⟩ :=
        ih (n + l) (SprintfOffset ((n : Int) + (l : Int))) (by omega) hnext (Or.inl hbelow)
      have hne : pages ≠ [] := by
        intro h
        rw [h] at hlast
        exact Option.noConfusion hlast
      refine ⟨{ Items := ((rows.drop n).take (l : Int).toNat).map (attachBoxOffice unmarshal)
                NextCursor := some (SprintfOffset ((n : Int) + (l : Int))) } :: pages,
        ?_, ?_, ?_, ?_⟩
      · intro fuel hf
        obtain ⟨f, rfl⟩ := Nat.exists_eq_succ_of_ne_zero (by omega : fuel ≠ 0)
        exact paginate_more unmarshal rows (l : Int) f cursor _ _ pages hpage rfl
          (hrun f (by omega))
      · refine ⟨last, ?_, hnone⟩
        rw [List.getLast?_cons, hlast]
        rfl
      · intro p hp
        rw [List.dropLast_cons_of_ne_nil hne] at hp
        rcases List.mem_cons.mp hp with hp | hp
        · rw [hp]
          refine ⟨?_, Option.some_ne_none _⟩
          simp only [Int.toNat_ofNat, List.length_map, List.length_take]
          omega
        · exact hfull p hp
      · simp only [List.map_cons, List.flatten_cons, hjoin, Int.toNat_ofNat]
        rw [← List.map_append, ← List.drop_drop, List.take_append_drop]
    · rw [if_neg hlt] at hpage
      refine ⟨[{ Items := (rows.drop n).map (attachBoxOffice unmarshal), NextCursor := none }],
        ?_, ⟨_, rfl, rfl⟩, ?_, ?_⟩
      · intro fuel hf
        obtain ⟨f, rfl⟩ := Nat.exists_eq_succ_of_ne_zero (by omega : fuel ≠ 0)
        exact paginate_last unmarshal rows limit f cursor _ hpage rfl
      · intro p hp
        exact absurd hp (List.not_mem_nil p)
      · simp only [List.map_cons, List.map_nil, List.flatten_cons, List.flatten_nil,
          List.append_nil]

/-- C9: for every ordered list of matching movies and every limit of at least 1,
searching from the empty cursor and again with each returned cursor ends: with
more fuel than rows the loop returns its pages, the last page has no cursor,
every earlier page has exactly `limit` items and a cursor, the pages laid end to
end are the full list, and a cursor `offset_<n>` is read back as `n`.  Three rows
with limit 2 give two items and `offset_2`, then one item and no cursor.  The limit
`GetMovies` passes on is always at least 1. -/
theorem paginate_complete (unmarshal : String → Option BoxOffice) (rows : List Movie)
    (limit : Int) (hlim : 1 ≤ limit) (hmax : limit ≤ maxInt)
    (hlen : (rows.length : Int) ≤ maxInt) :
    (∃ pages : List MoviePage,
      (∀ fuel, rows.length < fuel → paginate unmarshal rows limit fuel "" = some pages) ∧
      (∃ last, pages.getLast? = some last ∧ last.NextCursor = none) ∧
      (∀ p ∈ pages.dropLast, (p.Items.length : Int) = limit ∧ p.NextCursor ≠ none) ∧
      (pages.map (fun p => p.Items)).flatten = rows.map (attachBoxOffice unmarshal)) ∧
    (∀ n : Int, 0 ≤ n → n ≤ maxInt → DB.cursorOffset (SprintfOffset n) = n) ∧
    (∀ a b c : Movie, paginate unmarshal [a, b, c] 2 4 "" =
      some [{ Items := [attachBoxOffice unmarshal a, attachBoxOffice unmarshal b]
              NextCursor := some "offset_2" },
            { Items := [attachBoxOffice unmarshal c], NextCursor := none }]) ∧
    (∀ limitStr : String, 1 ≤ queryLimit limitStr ∧ queryLimit limitStr ≤ maxInt) := by
  refine ⟨?_, ?_, ?_, queryLimit_bounds⟩
  · have h := paginate_from unmarshal rows limit hlim hmax hlen rows.length 0 "" (by omega)
      (by decide) (Or.inr rfl)
    simpa using h
  · intro n h0 h1
    exact cursorOffset_SprintfOffset n (by simp only [minInt]; omega) h1
  · intro a b c
    rfl

/-- C9 (witness): three rows, limit 2. -/
theorem paginate_complete_witness :
    (∃ pages : List MoviePage,
      (∀ fuel, 3 < fuel → paginate (fun _ => none)
        [exampleMovie "1" "A" 3, exampleMovie "2" "B" 2, exampleMovie "3" "C" 1] 2 fuel ""
          = some pages) ∧
      (∃ last, pages.getLast? = some last ∧ last.NextCursor = none) ∧
      (∀ p ∈ pages.dropLast, (p.Items.length : Int) = 2 ∧ p.NextCursor ≠ none) ∧
      (pages.map (fun p => p.Items)).flatten =
        [exampleMovie "1" "A" 3, exampleMovie "2" "B" 2, exampleMovie "3" "C" 1].map
          (attachBoxOffice (fun _ => none))) :=
  (paginate_complete (fun _ => none)
    [exampleMovie "1" "A" 3, exampleMovie "2" "B" 2, exampleMovie "3" "C" 1] 2
    (by decide) (by decide) (by decide)).1

/-- C10 (amended): for every cursor string the offset `SearchMovies` derives is a 64-bit
integer, `0` when the cursor is empty or does not scan; whenever that offset is
not negative and `limit` is at least 1, a next cursor that is emitted is
`offset_<offset+limit>`, is read back as `offset+limit`, and that offset is at least
`limit`. -/
theorem cursorOffset_next (unmarshal : String → Option BoxOffice) (rows : List Movie)
    (limit : Int) (cursor : String) (hlim : 1 ≤ limit) (hmax : limit ≤ maxInt)
    (hlen : (rows.length : Int) ≤ maxInt) :
    (minInt ≤ DB.cursorOffset cursor ∧ DB.cursorOffset cursor ≤ maxInt) ∧
    (cursor = "" → DB.cursorOffset cursor = 0) ∧
    (SscanfOffset cursor = none → DB.cursorOffset cursor = 0) ∧
    (0 ≤ DB.cursorOffset cursor →
      ∀ page next, DB.SearchMovies unmarshal rows limit cursor = some page →
        page.NextCursor = some next →
        next = SprintfOffset (DB.cursorOffset cursor + limit) ∧
        DB.cursorOffset next = DB.cursorOffset cursor + limit ∧
        limit ≤ DB.cursorOffset next) := by
  refine ⟨cursorOffset_bounds cursor, ?_, ?_, ?_⟩
  · rintro rfl
    decide
  · intro h
    simp only [DB.cursorOffset, h]
    split <;> rfl
  · intro hoff page next hpage hnext
    obtain ⟨n, hn⟩ := Int.eq_ofNat_of_zero_le hoff
    have hd : (rows.drop n).length = rows.length - n := List.length_drop _ _
    by_cases hwrap : limit < maxInt ∨ n = 0
    · rw [SearchMovies_of_offset unmarshal rows limit cursor n hn hlim hmax hlen hwrap] at hpage
      have hpage2 := Option.some.inj hpage
      split at hpage2
      · next hlt =>
        rw [← hpage2] at hnext
        have hnx : next = SprintfOffset ((n : Int) + limit) := (Option.some.inj hnext).symm
        have hback : DB.cursorOffset next = (n : Int) + limit := by
          rw [hnx]
          apply cursorOffset_SprintfOffset
          · simp only [minInt]; omega
          · simp only [maxInt] at hlen ⊢; omega
        rw [hn]
        refine ⟨hnx, hback, ?_⟩
        rw [hback]
        omega
      · rw [← hpage2] at hnext
        exact Option.noConfusion hnext
    · have hlimit : limit = maxInt := by
        have h1 : ¬ limit < maxInt := fun h => hwrap (Or.inl h)
        omega
      have hpos : 0 < DB.cursorOffset cursor := by
        have h2 : n ≠ 0 := fun h => hwrap (Or.inr h)
        rw [hn]
        omega
      rw [hlimit, SearchMovies_refused unmarshal rows cursor hpos] at hpage
      exact Option.noConfusion hpage

/-- C10 (witness): four rows, limit 2, cursor `offset_1`. -/
theorem cursorOffset_next_witness :
    0 ≤ DB.cursorOffset "offset_1" ∧
    ∀ page next, DB.SearchMovies (fun _ => none)
        [exampleMovie "1" "A" 3, exampleMovie "2" "B" 2, exampleMovie "3" "C" 1,
         exampleMovie "4" "D" 0] 2 "offset_1" = some page →
      page.NextCursor = some next →
      next = SprintfOffset (DB.cursorOffset "offset_1" + 2) ∧
      DB.cursorOffset next = DB.cursorOffset "offset_1" + 2 ∧
      2 ≤ DB.cursorOffset next :=
  ⟨by decide,
    (cursorOffset_next (fun _ => none)
      [exampleMovie "1" "A" 3, exampleMovie "2" "B" 2, exampleMovie "3" "C" 1,
       exampleMovie "4" "D" 0]
      2 "offset_1" (by decide) (by decide) (by decide)).2.2.2 (by decide)⟩

/-- C10 (counterexample): the client cursor `offset_-7` gives the negative offset `-7`, and with
limit 2 over three rows the emitted next cursor is `offset_-5`, which encodes a
negative offset smaller than the limit. -/
theorem cursorOffset_negative :
    DB.cursorOffset "offset_-7" = -7 ∧
    DB.SearchMovies (fun _ => none)
      [exampleMovie "1" "A" 3, exampleMovie "2" "B" 2, exampleMovie "3" "C" 1] 2
      "offset_-7" =
      some { Items := [exampleMovie "1" "A" 3, exampleMovie "2" "B" 2]
             NextCursor := some "offset_-5" } ∧
    DB.cursorOffset "offset_-5" = -5 ∧
    ¬ (0 ≤ DB.cursorOffset "offset_-7" ∧
       ∀ page next, DB.SearchMovies (fun _ => none)
          [exampleMovie "1" "A" 3, exampleMovie "2" "B" 2, exampleMovie "3" "C" 1] 2
          "offset_-7" = some page → page.NextCursor = some next →
        0 ≤ DB.cursorOffset next ∧ 2 ≤ DB.cursorOffset next) := by
  refine ⟨by decide, by decide, by decide, ?_⟩
  intro h
  exact absurd h.1 (by decide)

/-! ## Rating upsert -/

theorem firstRating_none_iff (ratings : List Rating) (title rater : String) :
    DB.firstRating ratings title rater = none ↔
      (title, rater) ∉ ratings.map (fun r => (r.MovieTitle, r.RaterID)) := by
  simp only [DB.firstRating, List.find?_eq_none, List.mem_map, Prod.mk.injEq, not_exists,
    not_and, Bool.and_eq_true, beq_iff_eq]

theorem firstRating_some (ratings : List Rating) (title rater : String) (e : Rating)
    (h : DB.firstRating ratings title rater = some e) :
    e ∈ ratings ∧ e.MovieTitle = title ∧ e.RaterID = rater := by
  unfold DB.firstRating at h
  have hm := List.mem_of_find?_eq_some h
  have hp := List.find?_some h
  simp only [Bool.and_eq_true, beq_iff_eq] at hp
  exact ⟨hm, hp.1, hp.2⟩

theorem any_ID_iff (ratings : List Rating) (id : String) :
    ratings.any (fun r => r.ID == id) = true ↔ id ∈ ratings.map (fun r => r.ID) := by
  simp only [List.any_eq_true, beq_iff_eq, List.mem_map]

theorem createRating_ok (ratings : List Rating) (rating : Rating) (now : Nat)
    (hfit : DB.fitsRating (DB.stampCreate rating now) = true)
    (hfree : rating.ID ∉ ratings.map (fun r => r.ID)) :
    DB.createRating ratings rating now =
      (none, DB.stampCreate rating now, ratings ++ [DB.stampCreate rating now]) := by
  have hany : ¬ (ratings.any (fun r => r.ID == (DB.stampCreate rating now).ID) = true) :=
    fun h => hfree ((any_ID_iff ratings _).mp h)
  unfold DB.createRating
  simp only [hfit, Bool.not_true, Bool.false_eq_true, if_false, hany]

theorem createRating_too_long (ratings : List Rating) (rating : Rating) (now : Nat)
    (hfit : DB.fitsRating (DB.stampCreate rating now) = false) :
    DB.createRating ratings rating now =
      (some DbError.ErrDataTooLong, DB.stampCreate rating now, ratings) := by
  unfold DB.createRating
  simp only [hfit, Bool.not_false, if_true]

theorem createRating_taken (ratings : List Rating) (rating : Rating) (now : Nat)
    (hfit : DB.fitsRating (DB.stampCreate rating now) = true)
    (htaken : rating.ID ∈ ratings.map (fun r => r.ID)) :
    DB.createRating ratings rating now =
      (some DbError.ErrDuplicatedKey, DB.stampCreate rating now, ratings) := by
  have hany : ratings.any (fun r => r.ID == (DB.stampCreate rating now).ID) = true :=
    (any_ID_iff ratings _).mpr htaken
  unfold DB.createRating
  simp only [hfit, Bool.not_true, Bool.false_eq_true, if_false, hany, if_true]

theorem createRating_unchanged_of_taken (ratings : List Rating) (rating : Rating) (now : Nat)
    (h : rating.ID ∈ ratings.map (fun r => r.ID)) :
    (DB.createRating ratings rating now).2.2 = ratings := by
  cases hfit : DB.fitsRating (DB.stampCreate rating now) with
  | false => rw [createRating_too_long ratings rating now hfit]
  | true => rw [createRating_taken ratings rating now hfit h]

theorem createRating_invariant (ratings : List Rating) (rating : Rating) (now : Nat)
    (hkey : KeyUnique ratings) (hpair : PairUnique ratings)
    (hnew : (rating.MovieTitle, rating.RaterID) ∉
      ratings.map (fun r => (r.MovieTitle, r.RaterID))) :
    KeyUnique (DB.createRating ratings rating now).2.2 ∧
    PairUnique (DB.createRating ratings rating now).2.2 := by
  cases hfit : DB.fitsRating (DB.stampCreate rating now) with
  | false =>
    rw [createRating_too_long ratings rating now hfit]
    exact ⟨hkey, hpair⟩
  | true =>
    by_cases htaken : rating.ID ∈ ratings.map (fun r => r.ID)
    · rw [createRating_taken ratings rating now hfit htaken]
      exact ⟨hkey, hpair⟩
    · rw [createRating_ok ratings rating now hfit htaken]
      constructor
      · unfold KeyUnique at hkey ⊢
        rw [List.map_append, List.nodup_append]
        refine ⟨hkey, List.nodup_singleton _, ?_⟩
        intro x hx hx2
        rw [List.map_cons, List.map_nil, List.mem_singleton] at hx2
        rw [hx2] at hx
        exact htaken hx
      · unfold PairUnique at hpair ⊢
        rw [List.map_append, List.nodup_append]
        refine ⟨hpair, List.nodup_singleton _, ?_⟩
        intro x hx hx2
        rw [List.map_cons, List.map_nil, List.mem_singleton] at hx2
        rw [hx2] at hx
        exact hnew hx

theorem saveRating_update (ratings : List Rating) (rating : Rating) (now : Nat)
    (hid : rating.ID ≠ "") (hfit : DB.fitsRating (DB.stampUpdate rating now) = true)
    (htaken : rating.ID ∈ ratings.map (fun r => r.ID)) :
    DB.saveRating ratings rating now =
      (none, DB.stampUpdate rating now,
        ratings.map (fun r => if r.ID = rating.ID then DB.stampUpdate rating now else r)) := by
  have hany : ratings.any (fun r => r.ID == (DB.stampUpdate rating now).ID) = true :=
    (any_ID_iff ratings _).mpr htaken
  unfold DB.saveRating
  simp only [hid, if_false, hfit, Bool.not_true, Bool.false_eq_true, hany, if_true]
  rfl

theorem saveRating_too_long (ratings : List Rating) (rating : Rating) (now : Nat)
    (hid : rating.ID ≠ "") (hfit : DB.fitsRating (DB.stampUpdate rating now) = false) :
    DB.saveRating ratings rating now =
      (some DbError.ErrDataTooLong, DB.stampUpdate rating now, ratings) := by
  unfold DB.saveRating
  simp only [hid, if_false, hfit, Bool.not_false, if_true]

theorem map_overwrite_pairs (ratings : List Rating) (e stamped : Rating)
    (hkey : KeyUnique ratings) (he : e ∈ ratings) (hid : stamped.ID = e.ID)
    (ht : stamped.MovieTitle = e.MovieTitle) (hr : stamped.RaterID = e.RaterID) :
    (ratings.map (fun r => if r.ID = stamped.ID then stamped else r)).map
        (fun r => (r.MovieTitle, r.RaterID)) =
      ratings.map (fun r => (r.MovieTitle, r.RaterID)) := by
  rw [List.map_map]
  apply List.map_congr_left
  intro r hr2
  simp only [Function.comp]
  split
  · next hri =>
    have : r = e := by
      unfold KeyUnique at hkey
      exact List.inj_on_of_nodup_map hkey hr2 he (by rw [hri, hid])
    rw [this, ht, hr]
  · rfl

theorem map_overwrite_keys (ratings : List Rating) (stamped : Rating) :
    (ratings.map (fun r => if r.ID = stamped.ID then stamped else r)).map (fun r => r.ID) =
      ratings.map (fun r => r.ID) := by
  rw [List.map_map]
  apply List.map_congr_left
  intro r _
  simp only [Function.comp]
  split
  · next h => exact h.symm
  · rfl

theorem UpsertRating_step (ratings : List Rating) (rating : Rating) (uuid : String) (now : Nat)
    (hkey : KeyUnique ratings) (hpair : PairUnique ratings) :
    KeyUnique (DB.UpsertRating ratings rating uuid now).ratings ∧
    PairUnique (DB.UpsertRating ratings rating uuid now).ratings := by
  unfold DB.UpsertRating
  split
  · next hnone =>
    exact createRating_invariant ratings _ now hkey hpair
      ((firstRating_none_iff ratings _ _).mp hnone)
  · next e hsome =>
    obtain ⟨hmem, ht, hr⟩ := firstRating_some ratings _ _ e hsome
    have hidmem : e.ID ∈ ratings.map (fun r => r.ID) := List.mem_map_of_mem _ hmem
    simp only
    by_cases hempty : e.ID = ""
    · have hsave : DB.saveRating ratings
          { rating with ID := e.ID, CreatedAt := e.CreatedAt } now =
          DB.createRating ratings { rating with ID := e.ID, CreatedAt := e.CreatedAt } now := by
        unfold DB.saveRating
        rw [if_pos hempty]
      rw [hsave, createRating_unchanged_of_taken ratings
        { rating with ID := e.ID, CreatedAt := e.CreatedAt } now hidmem]
      exact ⟨hkey, hpair⟩
    · cases hfit : DB.fitsRating
          (DB.stampUpdate { rating with ID := e.ID, CreatedAt := e.CreatedAt } now) with
      | false =>
        rw [saveRating_too_long ratings { rating with ID := e.ID, CreatedAt := e.CreatedAt }
          now hempty hfit]
        exact ⟨hkey, hpair⟩
      | true =>
        rw [saveRating_update ratings { rating with ID := e.ID, CreatedAt := e.CreatedAt }
          now hempty hfit hidmem]
        constructor
        · unfold KeyUnique
          refine Eq.mpr (congrArg List.Nodup ?_) hkey
          exact map_overwrite_keys ratings
            (DB.stampUpdate { rating with ID := e.ID, CreatedAt := e.CreatedAt } now)
        · unfold PairUnique
          refine Eq.mpr (congrArg List.Nodup ?_) hpair
          exact map_overwrite_pairs ratings e
            (DB.stampUpdate { rating with ID := e.ID, CreatedAt := e.CreatedAt } now)
            hkey hmem rfl ht.symm hr.symm

theorem Reachable_invariant (ratings : List Rating) (h : Reachable ratings) :
    KeyUnique ratings ∧ PairUnique ratings := by
  induction h with
  | empty => exact ⟨List.nodup_nil, List.nodup_nil⟩
  | upsert s r uuid now _ ih => exact UpsertRating_step s r uuid now ih.1 ih.2

/-- C3: if a ratings table (no two rows sharing a primary key) holds at most one rating per
(movie title, rater identity) pair before an `UpsertRating` call, it holds at most one
per pair after it, for every submitted rating, generated identifier and clock
value; hence every store reachable from the empty store by `UpsertRating` calls has
at most one rating per pair. -/
theorem UpsertRating_invariant (ratings : List Rating) (rating : Rating) (uuid : String)
    (now : Nat) (hkey : KeyUnique ratings) (hpair : PairUnique ratings) :
    PairUnique (DB.UpsertRating ratings rating uuid now).ratings ∧
    KeyUnique (DB.UpsertRating ratings rating uuid now).ratings ∧
    (∀ store, Reachable store → PairUnique store) :=
  ⟨(UpsertRating_step ratings rating uuid now hkey hpair).2,
   (UpsertRating_step ratings rating uuid now hkey hpair).1,
   fun store h => (Reachable_invariant store h).2⟩

/-- C3 (witness): a table of two ratings and a second submission by the rater `u1`. -/
theorem UpsertRating_invariant_witness :
    KeyUnique [⟨"id1", "A", "u1", 4, 1, 1⟩, ⟨"id2", "A", "u2", 5, 2, 2⟩] ∧
    PairUnique [⟨"id1", "A", "u1", 4, 1, 1⟩, ⟨"id2", "A", "u2", 5, 2, 2⟩] ∧
    PairUnique (DB.UpsertRating [⟨"id1", "A", "u1", 4, 1, 1⟩, ⟨"id2", "A", "u2", 5, 2, 2⟩]
      ⟨"", "A", "u1", 3, 0, 0⟩ "id3" 9).ratings :=
  ⟨by decide, by decide,
    (UpsertRating_invariant [⟨"id1", "A", "u1", 4, 1, 1⟩, ⟨"id2", "A", "u2", 5, 2, 2⟩]
      ⟨"", "A", "u1", 3, 0, 0⟩ "id3" 9 (by decide) (by decide)).1⟩

/-! ## Rating submission -/

theorem ratingIsValid_iff (v : ℚ) : ratingIsValid v = true ↔ IsHalfStep v := by
  simp only [ratingIsValid, validRatings, IsHalfStep, List.any_cons, List.any_nil,
    Bool.or_false, Bool.or_eq_true, decide_eq_true_eq]
  constructor
  · rintro (h | h | h | h | h | h | h | h | h | h)
    · exact ⟨1, by norm_num, by norm_num, by rw [h]; norm_num⟩
    · exact ⟨2, by norm_num, by norm_num, by rw [h]; norm_num⟩
    · exact ⟨3, by norm_num, by norm_num, by rw [h]; norm_num⟩
    · exact ⟨4, by norm_num, by norm_num, by rw [h]; norm_num⟩
    · exact ⟨5, by norm_num, by norm_num, by rw [h]; norm_num⟩
    · exact ⟨6, by norm_num, by norm_num, by rw [h]; norm_num⟩
    · exact ⟨7, by norm_num, by norm_num, by rw [h]; norm_num⟩
    · exact ⟨8, by norm_num, by norm_num, by rw [h]; norm_num⟩
    · exact ⟨9, by norm_num, by norm_num, by rw [h]; norm_num⟩
    · exact ⟨10, by norm_num, by norm_num, by rw [h]; norm_num⟩
  · rintro ⟨k, h1, h2, rfl⟩
    interval_cases k <;> norm_num

theorem IsHalfStep_ne_zero (v : ℚ) (h : IsHalfStep v) : v ≠ 0 := by
  obtain ⟨k, h1, _, rfl⟩ := h
  have : (0 : ℚ) < (k : ℚ) := by exact_mod_cast h1
  positivity

theorem GetMovieByTitle_isSome (unmarshal : String → Option BoxOffice) (movies : List Movie)
    (title : String) (h : ∃ m ∈ movies, m.Title = title) :
    ∃ found, DB.GetMovieByTitle unmarshal movies title = some found := by
  obtain ⟨m, hm, ht⟩ := h
  unfold DB.GetMovieByTitle
  cases hf : movies.find? (fun m => m.Title == title) with
  | none =>
    rw [List.find?_eq_none] at hf
    exact absurd (by simpa using ht) (hf m hm)
  | some x => exact ⟨_, rfl⟩

theorem firstRating_overwrite (ratings : List Rating) (title rater : String)
    (e stamped : Rating) (h : DB.firstRating ratings title rater = some e)
    (ht : stamped.MovieTitle = title) (hr : stamped.RaterID = rater) :
    DB.firstRating (ratings.map (fun r => if r.ID = e.ID then stamped else r)) title rater =
      some stamped := by
  unfold DB.firstRating at h ⊢
  induction ratings with
  | nil => simp at h
  | cons r rs ih =>
    rw [List.find?_cons] at h
    rw [List.map_cons, List.find?_cons]
    by_cases hid : r.ID = e.ID
    · simp [hid, ht, hr]
    · split at h
      · next hp =>
        have : r = e := by simpa using h
        exact absurd (by rw [this]) hid
      · next hp =>
        simp only [hid, if_false, hp]
        exact ih h

theorem SubmitRating_of_valid (unmarshal : String → Option BoxOffice) (movies : List Movie)
    (ratings : List Rating) (title raterID : String) (value : ℚ) (uuid : String) (now : Nat)
    (hvalue : IsHalfStep value) (hmovie : ∃ m ∈ movies, m.Title = title) :
    MovieHandler.SubmitRating unmarshal movies ratings title raterID (some ⟨value⟩) uuid now =
      match (DB.UpsertRating ratings ⟨"", title, raterID, value, 0, 0⟩ uuid now).err with
      | some _ =>
        (⟨StatusInternalServerError, "INTERNAL_ERROR"⟩,
          (DB.UpsertRating ratings ⟨"", title, raterID, value, 0, 0⟩ uuid now).ratings)
      | none =>
        if (DB.UpsertRating ratings ⟨"", title, raterID, value, 0, 0⟩ uuid now).created then
          (⟨StatusCreated, ""⟩,
            (DB.UpsertRating ratings ⟨"", title, raterID, value, 0, 0⟩ uuid now).ratings)
        else
          (⟨StatusOK, ""⟩,
            (DB.UpsertRating ratings ⟨"", title, raterID, value, 0, 0⟩ uuid now).ratings) := by
  have hvalid := (ratingIsValid_iff value).mpr hvalue
  have hnz := IsHalfStep_ne_zero value hvalue
  obtain ⟨found, hfound⟩ := GetMovieByTitle_isSome unmarshal movies title hmovie
  have hbind : bindRatingSubmit (some ⟨value⟩) = some ⟨value⟩ := by
    simp [bindRatingSubmit, hnz]
  simp only [MovieHandler.SubmitRating, hbind, hvalid, Bool.not_true, Bool.false_eq_true,
    if_false, hfound]

theorem UpsertRating_create (ratings : List Rating) (rating : Rating) (uuid : String)
    (now : Nat) (h : DB.firstRating ratings rating.MovieTitle rating.RaterID = none) :
    DB.UpsertRating ratings rating uuid now =
      { created := true
        err := (DB.createRating ratings { rating with ID := uuid } now).1
        rating := (DB.createRating ratings { rating with ID := uuid } now).2.1
        ratings := (DB.createRating ratings { rating with ID := uuid } now).2.2 } := by
  unfold DB.UpsertRating
  simp only [h]

theorem UpsertRating_update (ratings : List Rating) (rating e : Rating) (uuid : String)
    (now : Nat) (h : DB.firstRating ratings rating.MovieTitle rating.RaterID = some e) :
    DB.UpsertRating ratings rating uuid now =
      { created := false
        err := (DB.saveRating ratings
          { rating with ID := e.ID, CreatedAt := e.CreatedAt } now).1
        rating := (DB.saveRating ratings
          { rating with ID := e.ID, CreatedAt := e.CreatedAt } now).2.1
        ratings := (DB.saveRating ratings
          { rating with ID := e.ID, CreatedAt := e.CreatedAt } now).2.2 } := by
  unfold DB.UpsertRating
  simp only [h]

theorem fitsRating_of_lengths (id title rater : String) (value : ℚ) (c u : Nat)
    (hid : id.length ≤ 36) (ht : title.length ≤ 255) (hr : rater.length ≤ 255) :
    DB.fitsRating ⟨id, title, rater, value, c, u⟩ = true := by
  simp only [DB.fitsRating, hid, ht, hr, decide_True, Bool.and_self]

/-- C2 (amended): for every (title, rater) pair of at most 255 characters each, every half-step
value, a stored movie with that title and every ratings table whose identifiers
are the 36 characters `generateUUID` writes: when no rating for the pair is stored
and the generated identifier is not yet in use, `UpsertRating` reports created
(true) and appends the new rating, and the handler answers 201; when a rating for
the pair is stored, it reports updated (false), the stored rating keeps its
identifier and creation time, its value becomes the submitted value, and the
handler answers 200. -/
theorem SubmitRating_upsert (unmarshal : String → Option BoxOffice) (movies : List Movie)
    (ratings : List Rating) (title raterID : String) (value : ℚ) (uuid : String) (now : Nat)
    (hvalue : IsHalfStep value) (hmovie : ∃ m ∈ movies, m.Title = title)
    (htitle : title.length ≤ 255) (hrater : raterID.length ≤ 255)
    (huuid : uuid.length = 36) (hids : ∀ r ∈ ratings, r.ID.length = 36) :
    ((∀ r ∈ ratings, ¬ (r.MovieTitle = title ∧ r.RaterID = raterID)) →
      (∀ r ∈ ratings, r.ID ≠ uuid) →
      (DB.UpsertRating ratings ⟨"", title, raterID, value, 0, 0⟩ uuid now).created = true ∧
      (DB.UpsertRating ratings ⟨"", title, raterID, value, 0, 0⟩ uuid now).err = none ∧
      (DB.UpsertRating ratings ⟨"", title, raterID, value, 0, 0⟩ uuid now).ratings =
        ratings ++ [⟨uuid, title, raterID, value, now, now⟩] ∧
      MovieHandler.SubmitRating unmarshal movies ratings title raterID (some ⟨value⟩) uuid now =
        (⟨StatusCreated, ""⟩, ratings ++ [⟨uuid, title, raterID, value, now, now⟩])) ∧
    ((∃ r ∈ ratings, r.MovieTitle = title ∧ r.RaterID = raterID) →
      ∃ e ∈ ratings, e.MovieTitle = title ∧ e.RaterID = raterID ∧
        (DB.UpsertRating ratings ⟨"", title, raterID, value, 0, 0⟩ uuid now).created = false ∧
        (DB.UpsertRating ratings ⟨"", title, raterID, value, 0, 0⟩ uuid now).err = none ∧
        (DB.UpsertRating ratings ⟨"", title, raterID, value, 0, 0⟩ uuid now).ratings =
          ratings.map (fun r =>
            if r.ID = e.ID then ⟨e.ID, title, raterID, value, e.CreatedAt, now⟩ else r) ∧
        DB.firstRating
          (DB.UpsertRating ratings ⟨"", title, raterID, value, 0, 0⟩ uuid now).ratings
          title raterID = some ⟨e.ID, title, raterID, value, e.CreatedAt, now⟩ ∧
        MovieHandler.SubmitRating unmarshal movies ratings title raterID (some ⟨value⟩) uuid
            now =
          (⟨StatusOK, ""⟩, ratings.map (fun r =>
            if r.ID = e.ID then ⟨e.ID, title, raterID, value, e.CreatedAt, now⟩ else r))) := by
  have hhandler := SubmitRating_of_valid unmarshal movies ratings title raterID value uuid now
    hvalue hmovie
  constructor
  · intro hnone hfresh
    have hfirst : DB.firstRating ratings title raterID = none := by
      rw [firstRating_none_iff]
      simp only [List.mem_map, Prod.mk.injEq, not_exists, not_and]
      intro r hr h1 h2
      exact hnone r hr ⟨h1, h2⟩
    have hfree : uuid ∉ ratings.map (fun r => r.ID) := by
      simp only [List.mem_map, not_exists, not_and]
      exact hfresh
    have hfit : DB.fitsRating (DB.stampCreate ⟨uuid, title, raterID, value, 0, 0⟩ now) = true :=
      fitsRating_of_lengths uuid title raterID value now now (by omega) htitle hrater
    have hc := createRating_ok ratings ⟨uuid, title, raterID, value, 0, 0⟩ now hfit hfree
    have hres : DB.UpsertRating ratings ⟨"", title, raterID, value, 0, 0⟩ uuid now =
        { created := true, err := none, rating := ⟨uuid, title, raterID, value, now, now⟩,
          ratings := ratings ++ [⟨uuid, title, raterID, value, now, now⟩] } := by
      rw [UpsertRating_create ratings ⟨"", title, raterID, value, 0, 0⟩ uuid now hfirst]
      show DB.UpsertResult.mk true
        (DB.createRating ratings ⟨uuid, title, raterID, value, 0, 0⟩ now).1
        (DB.createRating ratings ⟨uuid, title, raterID, value, 0, 0⟩ now).2.1
        (DB.createRating ratings ⟨uuid, title, raterID, value, 0, 0⟩ now).2.2 = _
      rw [hc]
      rfl
    refine ⟨by rw [hres], by rw [hres], by rw [hres], ?_⟩
    rw [hhandler, hres]
    rfl
  · rintro ⟨r, hr, hrt, hrr⟩
    cases hfirst : DB.firstRating ratings title raterID with
    | none =>
      rw [firstRating_none_iff] at hfirst
      exact absurd (List.mem_map.mpr ⟨r, hr, by rw [hrt, hrr]⟩) hfirst
    | some e =>
      obtain ⟨hmem, het, her⟩ := firstRating_some ratings title raterID e hfirst
      have hlen : e.ID.length = 36 := hids e hmem
      have hne : e.ID ≠ "" := by
        intro h
        rw [h] at hlen
        exact absurd hlen (by decide)
      have htaken : e.ID ∈ ratings.map (fun r => r.ID) := List.mem_map_of_mem _ hmem
      have hfit : DB.fitsRating
          (DB.stampUpdate ⟨e.ID, title, raterID, value, e.CreatedAt, 0⟩ now) = true :=
        fitsRating_of_lengths e.ID title raterID value e.CreatedAt now (by omega) htitle hrater
      have hs := saveRating_update ratings ⟨e.ID, title, raterID, value, e.CreatedAt, 0⟩ now
        hne hfit htaken
      have hres : DB.UpsertRating ratings ⟨"", title, raterID, value, 0, 0⟩ uuid now =
          { created := false, err := none
            rating := ⟨e.ID, title, raterID, value, e.CreatedAt, now⟩
            ratings := ratings.map (fun r =>
              if r.ID = e.ID then ⟨e.ID, title, raterID, value, e.CreatedAt, now⟩ else r) } := by
        rw [UpsertRating_update ratings ⟨"", title, raterID, value, 0, 0⟩ e uuid now hfirst]
        show DB.UpsertResult.mk false
          (DB.saveRating ratings ⟨e.ID, title, raterID, value, e.CreatedAt, 0⟩ now).1
          (DB.saveRating ratings ⟨e.ID, title, raterID, value, e.CreatedAt, 0⟩ now).2.1
          (DB.saveRating ratings ⟨e.ID, title, raterID, value, e.CreatedAt, 0⟩ now).2.2 = _
        rw [hs]
        rfl
      refine ⟨e, hmem, het, her, by rw [hres], by rw [hres], by rw [hres], ?_, ?_⟩
      · rw [hres]
        exact firstRating_overwrite ratings title raterID e _ hfirst rfl rfl
      · rw [hhandler, hres]
        rfl

/-- C2 (witness): the movie `A`, one stored rating by `u1`, and a submission of 4.5 by `u1`. -/
theorem SubmitRating_upsert_witness :
    ∃ e ∈ [(⟨"aaaaaaaaaaaaaaaaaaaaaaaaaaaaaaaaaaaa", "A", "u1", 4, 1, 1⟩ : Rating)],
      e.MovieTitle = "A" ∧ e.RaterID = "u1" ∧
      (DB.UpsertRating [⟨"aaaaaaaaaaaaaaaaaaaaaaaaaaaaaaaaaaaa", "A", "u1", 4, 1, 1⟩]
        ⟨"", "A", "u1", 9 / 2, 0, 0⟩ "bbbbbbbbbbbbbbbbbbbbbbbbbbbbbbbbbbbb" 7).created = false ∧
      (DB.UpsertRating [⟨"aaaaaaaaaaaaaaaaaaaaaaaaaaaaaaaaaaaa", "A", "u1", 4, 1, 1⟩]
        ⟨"", "A", "u1", 9 / 2, 0, 0⟩ "bbbbbbbbbbbbbbbbbbbbbbbbbbbbbbbbbbbb" 7).err = none ∧
      (DB.UpsertRating [⟨"aaaaaaaaaaaaaaaaaaaaaaaaaaaaaaaaaaaa", "A", "u1", 4, 1, 1⟩]
        ⟨"", "A", "u1", 9 / 2, 0, 0⟩ "bbbbbbbbbbbbbbbbbbbbbbbbbbbbbbbbbbbb" 7).ratings =
        [(⟨"aaaaaaaaaaaaaaaaaaaaaaaaaaaaaaaaaaaa", "A", "u1", 4, 1, 1⟩ : Rating)].map (fun r =>
          if r.ID = e.ID then ⟨e.ID, "A", "u1", 9 / 2, e.CreatedAt, 7⟩ else r) ∧
      DB.firstRating
        (DB.UpsertRating [⟨"aaaaaaaaaaaaaaaaaaaaaaaaaaaaaaaaaaaa", "A", "u1", 4, 1, 1⟩]
          ⟨"", "A", "u1", 9 / 2, 0, 0⟩ "bbbbbbbbbbbbbbbbbbbbbbbbbbbbbbbbbbbb" 7).ratings "A" "u1" =
        some ⟨e.ID, "A", "u1", 9 / 2, e.CreatedAt, 7⟩ ∧
      MovieHandler.SubmitRating (fun _ => none) [exampleMovie "m1" "A" 1]
          [⟨"aaaaaaaaaaaaaaaaaaaaaaaaaaaaaaaaaaaa", "A", "u1", 4, 1, 1⟩] "A" "u1" (some ⟨9 / 2⟩) "bbbbbbbbbbbbbbbbbbbbbbbbbbbbbbbbbbbb" 7 =
        (⟨StatusOK, ""⟩, [(⟨"aaaaaaaaaaaaaaaaaaaaaaaaaaaaaaaaaaaa", "A", "u1", 4, 1, 1⟩ : Rating)].map (fun r =>
          if r.ID = e.ID then ⟨e.ID, "A", "u1", 9 / 2, e.CreatedAt, 7⟩ else r)) :=
  (SubmitRating_upsert (fun _ => none) [exampleMovie "m1" "A" 1]
    [⟨"aaaaaaaaaaaaaaaaaaaaaaaaaaaaaaaaaaaa", "A", "u1", 4, 1, 1⟩] "A" "u1" (9 / 2) "bbbbbbbbbbbbbbbbbbbbbbbbbbbbbbbbbbbb" 7
    ⟨9, by decide, by decide, by norm_num⟩
    ⟨exampleMovie "m1" "A" 1, List.mem_singleton.mpr rfl, rfl⟩
    (by decide) (by decide) (by decide) (by decide)).2
    ⟨⟨"aaaaaaaaaaaaaaaaaaaaaaaaaaaaaaaaaaaa", "A", "u1", 4, 1, 1⟩, List.mem_singleton.mpr rfl, rfl, rfl⟩

theorem SubmitRating_rater_too_long (unmarshal : String → Option BoxOffice)
    (movies : List Movie) (ratings : List Rating) (title raterID : String) (value : ℚ)
    (uuid : String) (now : Nat) (hvalue : IsHalfStep value)
    (hmovie : ∃ m ∈ movies, m.Title = title)
    (hnone : DB.firstRating ratings title raterID = none) (hlong : 255 < raterID.length) :
    MovieHandler.SubmitRating unmarshal movies ratings title raterID (some ⟨value⟩) uuid now =
      (⟨StatusInternalServerError, "INTERNAL_ERROR"⟩, ratings) := by
  have hnot : ¬ raterID.length ≤ 255 := by omega
  have hfit : DB.fitsRating (DB.stampCreate ⟨uuid, title, raterID, value, 0, 0⟩ now) =
      false := by
    simp only [DB.fitsRating, DB.stampCreate, hnot, decide_False, Bool.and_false]
  have hc := createRating_too_long ratings ⟨uuid, title, raterID, value, 0, 0⟩ now hfit
  have hres : DB.UpsertRating ratings ⟨"", title, raterID, value, 0, 0⟩ uuid now =
      { created := true, err := some DbError.ErrDataTooLong
        rating := DB.stampCreate ⟨uuid, title, raterID, value, 0, 0⟩ now
        ratings := ratings } := by
    rw [UpsertRating_create ratings ⟨"", title, raterID, value, 0, 0⟩ uuid now hnone]
    show DB.UpsertResult.mk true
      (DB.createRating ratings ⟨uuid, title, raterID, value, 0, 0⟩ now).1
      (DB.createRating ratings ⟨uuid, title, raterID, value, 0, 0⟩ now).2.1
      (DB.createRating ratings ⟨uuid, title, raterID, value, 0, 0⟩ now).2.2 = _
    rw [hc]
  rw [SubmitRating_of_valid unmarshal movies ratings title raterID value uuid now hvalue
    hmovie, hres]

theorem longRater_length : (String.mk (List.replicate 256 'x')).length = 256 := by
  simp only [String.length, List.length_replicate]

/-- C2 (counterexample): three store states at which the claim fails.  No rating of `u2` for `A`
is stored and `generateUUID` returns an identifier already in use: `UpsertRating` reports
created with a duplicate-key error, nothing is inserted and the handler answers
500.  No rating is stored and the rater identity has 256 characters: the insert
is refused and the handler answers 500.  A rating for the pair is stored under
the empty identifier: `Save` inserts instead of updating, the insert is refused
and the handler answers 500. -/
theorem SubmitRating_upsert_refused :
    ((∀ r ∈ [(⟨"aaaaaaaaaaaaaaaaaaaaaaaaaaaaaaaaaaaa", "A", "u1", 4, 1, 1⟩ : Rating)], ¬ (r.MovieTitle = "A" ∧ r.RaterID = "u2")) ∧
      (DB.UpsertRating [⟨"aaaaaaaaaaaaaaaaaaaaaaaaaaaaaaaaaaaa", "A", "u1", 4, 1, 1⟩] ⟨"", "A", "u2", 9 / 2, 0, 0⟩ "aaaaaaaaaaaaaaaaaaaaaaaaaaaaaaaaaaaa"
        7).created = true ∧
      (DB.UpsertRating [⟨"aaaaaaaaaaaaaaaaaaaaaaaaaaaaaaaaaaaa", "A", "u1", 4, 1, 1⟩] ⟨"", "A", "u2", 9 / 2, 0, 0⟩ "aaaaaaaaaaaaaaaaaaaaaaaaaaaaaaaaaaaa"
        7).err = some DbError.ErrDuplicatedKey ∧
      MovieHandler.SubmitRating (fun _ => none) [exampleMovie "m1" "A" 1]
          [⟨"aaaaaaaaaaaaaaaaaaaaaaaaaaaaaaaaaaaa", "A", "u1", 4, 1, 1⟩] "A" "u2" (some ⟨9 / 2⟩) "aaaaaaaaaaaaaaaaaaaaaaaaaaaaaaaaaaaa" 7 =
        (⟨StatusInternalServerError, "INTERNAL_ERROR"⟩, [⟨"aaaaaaaaaaaaaaaaaaaaaaaaaaaaaaaaaaaa", "A", "u1", 4, 1, 1⟩])) ∧
    MovieHandler.SubmitRating (fun _ => none) [exampleMovie "m1" "A" 1] [] "A"
        (String.mk (List.replicate 256 'x')) (some ⟨9 / 2⟩) "aaaaaaaaaaaaaaaaaaaaaaaaaaaaaaaaaaaa" 7 =
      (⟨StatusInternalServerError, "INTERNAL_ERROR"⟩, []) ∧
    ((∃ r ∈ [(⟨"", "A", "u1", 4, 1, 1⟩ : Rating)], r.MovieTitle = "A" ∧ r.RaterID = "u1") ∧
      (DB.UpsertRating [⟨"", "A", "u1", 4, 1, 1⟩] ⟨"", "A", "u1", 9 / 2, 0, 0⟩ "aaaaaaaaaaaaaaaaaaaaaaaaaaaaaaaaaaaa"
        7).err = some DbError.ErrDuplicatedKey ∧
      MovieHandler.SubmitRating (fun _ => none) [exampleMovie "m1" "A" 1]
          [⟨"", "A", "u1", 4, 1, 1⟩] "A" "u1" (some ⟨9 / 2⟩) "aaaaaaaaaaaaaaaaaaaaaaaaaaaaaaaaaaaa" 7 =
        (⟨StatusInternalServerError, "INTERNAL_ERROR"⟩, [⟨"", "A", "u1", 4, 1, 1⟩])) := by
  have hv : IsHalfStep (9 / 2) := ⟨9, by decide, by decide, by norm_num⟩
  have hm : ∃ m ∈ [exampleMovie "m1" "A" 1], m.Title = "A" :=
    ⟨exampleMovie "m1" "A" 1, List.mem_singleton.mpr rfl, rfl⟩
  refine ⟨⟨by decide, rfl, rfl, ?_⟩, ?_, ⟨⟨_, List.mem_singleton.mpr rfl, rfl, rfl⟩, rfl, ?_⟩⟩
  · rw [SubmitRating_of_valid _ _ _ _ _ _ _ _ hv hm]
    rfl
  · exact SubmitRating_rater_too_long _ _ _ _ _ _ _ _ hv hm rfl
      (by rw [longRater_length]; decide)
  · rw [SubmitRating_of_valid _ _ _ _ _ _ _ _ hv hm]
    rfl

/-- C5: for every submitted value that is not one of the ten half steps 0.5 .. 5.0 the
submit-rating handler answers 422 `BAD_REQUEST` and leaves the ratings alone,
whatever the movies table holds; for every value among the ten, binding and the
value check both pass, so the answer is not 422. -/
theorem SubmitRating_value_check (unmarshal : String → Option BoxOffice)
    (movies : List Movie) (ratings : List Rating) (title raterID : String) (value : ℚ)
    (uuid : String) (now : Nat) :
    (¬ IsHalfStep value →
      MovieHandler.SubmitRating unmarshal movies ratings title raterID (some ⟨value⟩) uuid now =
        (⟨StatusUnprocessableEntity, "BAD_REQUEST"⟩, ratings)) ∧
    (IsHalfStep value →
      bindRatingSubmit (some ⟨value⟩) = some ⟨value⟩ ∧ ratingIsValid value = true ∧
      (MovieHandler.SubmitRating unmarshal movies ratings title raterID (some ⟨value⟩) uuid
        now).1.status ≠ StatusUnprocessableEntity) := by
  constructor
  · intro h
    have hinvalid : ratingIsValid value = false := by
      rw [Bool.eq_false_iff, ne_eq, ratingIsValid_iff]
      exact h
    unfold MovieHandler.SubmitRating
    split
    · rfl
    · next req hreq =>
      have hreq2 : req = ⟨value⟩ := by
        unfold bindRatingSubmit at hreq
        simp only at hreq
        split at hreq
        · exact absurd hreq (by simp)
        · simpa using hreq.symm
      rw [hreq2]
      simp [hinvalid]
  · intro h
    have hvalid := (ratingIsValid_iff value).mpr h
    have hnz := IsHalfStep_ne_zero value h
    have hbind : bindRatingSubmit (some ⟨value⟩) = some ⟨value⟩ := by
      simp [bindRatingSubmit, hnz]
    refine ⟨hbind, hvalid, ?_⟩
    unfold MovieHandler.SubmitRating
    simp only [hbind, hvalid, Bool.not_true, Bool.false_eq_true, if_false]
    split
    · exact (by decide : StatusNotFound ≠ StatusUnprocessableEntity)
    · split
      · exact (by decide : StatusInternalServerError ≠ StatusUnprocessableEntity)
      · split
        · exact (by decide : StatusCreated ≠ StatusUnprocessableEntity)
        · exact (by decide : StatusOK ≠ StatusUnprocessableEntity)

/-- C5 (witness): 4.6 is refused and 4.5 passes, with no movie stored at all. -/
theorem SubmitRating_value_check_witness :
    MovieHandler.SubmitRating (fun _ => none) [] [] "A" "u1" (some ⟨23 / 5⟩) "id1" 7 =
        (⟨StatusUnprocessableEntity, "BAD_REQUEST"⟩, []) ∧
    (MovieHandler.SubmitRating (fun _ => none) [] [] "A" "u1" (some ⟨9 / 2⟩) "id1"
        7).1.status ≠ StatusUnprocessableEntity :=
  ⟨(SubmitRating_value_check (fun _ => none) [] [] "A" "u1" (23 / 5) "id1" 7).1
      (by
        rintro ⟨k, h1, h2, h3⟩
        interval_cases k <;> norm_num at h3),
    ((SubmitRating_value_check (fun _ => none) [] [] "A" "u1" (9 / 2) "id1" 7).2
      ⟨9, by decide, by decide, by norm_num⟩).2.2⟩

/-! ## Rating aggregate -/

theorem sqlRound1_rounded (x : ℚ) : IsRoundedToTenth x (DB.sqlRound1 x) := by
  unfold DB.sqlRound1 IsRoundedToTenth
  split
  · next hx =>
    have hf : Rat.floor (x * 10 + 1 / 2) = ⌊x * 10 + 1 / 2⌋ := rfl
    rw [hf]
    have h1 := Int.floor_le (x * 10 + 1 / 2)
    have h2 := Int.lt_floor_add_one (x * 10 + 1 / 2)
    refine ⟨⟨_, rfl⟩, ?_⟩
    rw [abs_le]
    constructor <;> linarith
  · next hx =>
    have hf : Rat.floor (-x * 10 + 1 / 2) = ⌊-x * 10 + 1 / 2⌋ := rfl
    rw [hf]
    have h1 := Int.floor_le (-x * 10 + 1 / 2)
    have h2 := Int.lt_floor_add_one (-x * 10 + 1 / 2)
    refine ⟨⟨-⌊-x * 10 + 1 / 2⌋, by push_cast; ring⟩, ?_⟩
    rw [abs_le]
    constructor <;> linarith

/-- C8: for every title and every ratings table, `GetRatingAggregate` returns as count the
number of stored ratings with that title; with no such rating it returns average
0 and count 0; otherwise its average is the arithmetic mean of their values
rounded to one decimal place.  The ratings 4.0 and 5.0 give average 4.5, count 2. -/
theorem GetRatingAggregate_spec (ratings : List Rating) (title : String) :
    (DB.GetRatingAggregate ratings title).Count =
      ((ratings.countP (fun r => r.MovieTitle == title) : Nat) : Int) ∧
    ((∀ r ∈ ratings, r.MovieTitle ≠ title) →
      DB.GetRatingAggregate ratings title = { Average := 0, Count := 0 }) ∧
    ((∃ r ∈ ratings, r.MovieTitle = title) →
      IsRoundedToTenth
        (mean ((ratings.filter (fun r => r.MovieTitle == title)).map (fun r => r.Rating)))
        (DB.GetRatingAggregate ratings title).Average) ∧
    DB.GetRatingAggregate
      [⟨"id1", "A", "u1", 4.0, 1, 1⟩, ⟨"id2", "B", "u1", 1.5, 2, 2⟩,
       ⟨"id3", "A", "u2", 5.0, 3, 3⟩] "A" = { Average := 4.5, Count := 2 } := by
  refine ⟨?_, ?_, ?_, ?_⟩
  · simp [DB.GetRatingAggregate, List.countP_eq_length_filter]
  · intro h
    have hf : ratings.filter (fun r => r.MovieTitle == title) = [] := by
      rw [List.filter_eq_nil_iff]
      intro r hr
      simpa using h r hr
    simp [DB.GetRatingAggregate, hf, DB.sqlAvg]
  · rintro ⟨r, hr, ht⟩
    have hne : (ratings.filter (fun r => r.MovieTitle == title)).map (fun r => r.Rating) ≠ [] := by
      intro h
      have hmem : r ∈ ratings.filter (fun r => r.MovieTitle == title) := by
        rw [List.mem_filter]
        exact ⟨hr, by simpa using ht⟩
      rw [List.map_eq_nil_iff] at h
      rw [h] at hmem
      simp at hmem
    simp only [DB.GetRatingAggregate, DB.sqlAvg, hne, if_false, Option.map_some',
      Option.getD_some]
    exact sqlRound1_rounded _
  · simp [DB.GetRatingAggregate, DB.sqlAvg, DB.sqlRound1]
    norm_num [Rat.floor]

/-- C8 (witness): two ratings stored for the title `A`. -/
theorem GetRatingAggregate_spec_witness :
    IsRoundedToTenth
      (mean ((([⟨"id1", "A", "u1", 4, 1, 1⟩, ⟨"id3", "A", "u2", 5, 3, 3⟩] : List Rating).filter
        (fun r => r.MovieTitle == "A")).map (fun r => r.Rating)))
      (DB.GetRatingAggregate [⟨"id1", "A", "u1", 4, 1, 1⟩, ⟨"id3", "A", "u2", 5, 3, 3⟩]
        "A").Average :=
  (GetRatingAggregate_spec [⟨"id1", "A", "u1", 4, 1, 1⟩, ⟨"id3", "A", "u2", 5, 3, 3⟩]
    "A").2.2.1 ⟨⟨"id1", "A", "u1", 4, 1, 1⟩, by simp, rfl⟩

/-! ## Release dates -/

theorem digitChar_of_isDigit (c : Char) (h : isDigit c = true) :
    Nat.digitChar (c.toNat - 48) = c := by
  have hb := isDigit_bounds c h
  have hc : c = Char.ofNat c.toNat := (Char.ofNat_toNat c).symm
  generalize c.toNat = n at hb hc
  obtain ⟨h1, h2⟩ := hb
  subst hc
  interval_cases n <;> rfl

theorem daysIn_eq_calendarDays (month year : Nat) (h1 : 1 ≤ month) (h2 : month ≤ 12) :
    daysIn month year = calendarDays year month := by
  by_cases hm : month = 2
  · subst hm
    unfold daysIn calendarDays isLeap
    by_cases h4 : year % 4 = 0 <;> by_cases h100 : year % 100 = 0 <;>
      by_cases h400 : year % 400 = 0 <;> simp [h4, h100, h400] <;> omega
  · interval_cases month <;> first | exact absurd rfl hm | rfl

theorem parseLongYear_some (l v : List Char) (year : Nat)
    (h : parseLongYear l = some (year, v)) :
    ∃ a b c e, l = a :: b :: c :: e :: v ∧ isDigit a = true ∧ isDigit b = true ∧
      isDigit c = true ∧ isDigit e = true ∧ year = decimalValue [a, b, c, e] := by
  unfold parseLongYear at h
  split at h
  · next a b c e rest =>
    split at h
    · next hd =>
      simp only [Bool.and_eq_true] at hd
      simp only [Option.some.injEq, Prod.mk.injEq] at h
      exact ⟨a, b, c, e, by rw [h.2], hd.1.1.1, hd.1.1.2, hd.1.2, hd.2, h.1.symm⟩
    · exact Option.noConfusion h
  · exact Option.noConfusion h

theorem getnum_some (l v : List Char) (n : Nat) (h : getnum l = some (n, v)) :
    ∃ a b, l = a :: b :: v ∧ isDigit a = true ∧ isDigit b = true ∧
      n = (a.toNat - 48) * 10 + (b.toNat - 48) := by
  unfold getnum at h
  split at h
  · next a b rest =>
    split at h
    · next hd =>
      simp only [Bool.and_eq_true] at hd
      simp only [Option.some.injEq, Prod.mk.injEq] at h
      exact ⟨a, b, by rw [h.2], hd.1, hd.2, h.1.symm⟩
    · exact Option.noConfusion h
  · exact Option.noConfusion h

theorem skip_some (l v : List Char) (h : skip l = some v) : l = '-' :: v := by
  unfold skip at h
  split at h
  · next c rest =>
    split at h
    · next hc =>
      simp only [Option.some.injEq] at h
      rw [hc, h]
    · exact Option.noConfusion h
  · exact Option.noConfusion h

theorem fourDigits_of_digits (a b c e : Char) (ha : isDigit a = true) (hb : isDigit b = true)
    (hc : isDigit c = true) (he : isDigit e = true) :
    decimalValue [a, b, c, e] ≤ 9999 ∧ fourDigits (decimalValue [a, b, c, e]) = [a, b, c, e] := by
  have ba := isDigit_bounds a ha
  have bb := isDigit_bounds b hb
  have bc := isDigit_bounds c hc
  have be := isDigit_bounds e he
  have hv : decimalValue [a, b, c, e] =
      (a.toNat - 48) * 1000 + (b.toNat - 48) * 100 + (c.toNat - 48) * 10 + (e.toNat - 48) := by
    simp only [decimalValue, List.foldl_cons, List.foldl_nil]
    ring
  rw [hv]
  refine ⟨by omega, ?_⟩
  unfold fourDigits
  have e1 : ((a.toNat - 48) * 1000 + (b.toNat - 48) * 100 + (c.toNat - 48) * 10 +
      (e.toNat - 48)) / 1000 = a.toNat - 48 := by omega
  have e2 : ((a.toNat - 48) * 1000 + (b.toNat - 48) * 100 + (c.toNat - 48) * 10 +
      (e.toNat - 48)) / 100 % 10 = b.toNat - 48 := by omega
  have e3 : ((a.toNat - 48) * 1000 + (b.toNat - 48) * 100 + (c.toNat - 48) * 10 +
      (e.toNat - 48)) / 10 % 10 = c.toNat - 48 := by omega
  have e4 : ((a.toNat - 48) * 1000 + (b.toNat - 48) * 100 + (c.toNat - 48) * 10 +
      (e.toNat - 48)) % 10 = e.toNat - 48 := by omega
  rw [e1, e2, e3, e4, digitChar_of_isDigit a ha, digitChar_of_isDigit b hb,
    digitChar_of_isDigit c hc, digitChar_of_isDigit e he]

theorem twoDigits_of_digits (a b : Char) (ha : isDigit a = true) (hb : isDigit b = true) :
    twoDigits ((a.toNat - 48) * 10 + (b.toNat - 48)) = [a, b] := by
  have ba := isDigit_bounds a ha
  have bb := isDigit_bounds b hb
  unfold twoDigits
  have e1 : ((a.toNat - 48) * 10 + (b.toNat - 48)) / 10 = a.toNat - 48 := by omega
  have e2 : ((a.toNat - 48) * 10 + (b.toNat - 48)) % 10 = b.toNat - 48 := by omega
  rw [e1, e2, digitChar_of_isDigit a ha, digitChar_of_isDigit b hb]

/-- What `time.Parse` accepts for the layout `2006-01-02` is a valid calendar date. -/
theorem timeParse_some_calendar (s : String) (r : Nat × Nat × Nat)
    (h : timeParse s = some r) : IsCalendarDate s := by
  unfold timeParse at h
  split at h
  · exact Option.noConfusion h
  · next year v1 h1 =>
    split at h
    · exact Option.noConfusion h
    · next v2 h2 =>
      split at h
      · exact Option.noConfusion h
      · next month v3 h3 =>
        split at h
        · exact Option.noConfusion h
        · next hmonth =>
          split at h
          · exact Option.noConfusion h
          · next v4 h4 =>
            split at h
            · exact Option.noConfusion h
            · next day v5 h5 =>
              split at h
              · exact Option.noConfusion h
              · next hrest =>
                split at h
                · exact Option.noConfusion h
                · next hday =>
                  obtain ⟨a, b, c, e, hl1, ha, hb, hc, he, hy⟩ :=
                    parseLongYear_some _ _ _ h1
                  obtain ⟨m1, m2, hl3, hm1, hm2, hm⟩ := getnum_some _ _ _ h3
                  obtain ⟨d1, d2, hl5, hd1, hd2, hd⟩ := getnum_some _ _ _ h5
                  have hl2 := skip_some _ _ h2
                  have hl4 := skip_some _ _ h4
                  have hv5 : v5 = [] := by simpa using hrest
                  simp only [Bool.or_eq_true, decide_eq_true_eq, not_or, not_lt] at hmonth hday
                  have hmo1 : 1 ≤ month := by omega
                  obtain ⟨hy9, hfour⟩ := fourDigits_of_digits a b c e ha hb hc he
                  refine ⟨year, month, day, by rw [hy]; exact hy9, hmo1, by omega, by omega,
                    ?_, ?_⟩
                  · rw [← daysIn_eq_calendarDays month year hmo1 (by omega)]
                    omega
                  · rw [hl1, hl2, hl3, hl4, hl5, hv5, hy, hfour, hm, hd,
                      twoDigits_of_digits m1 m2 hm1 hm2, twoDigits_of_digits d1 d2 hd1 hd2]
                    rfl

/-- Every valid calendar date is accepted by `time.Parse` for the layout `2006-01-02`. -/
theorem timeParse_of_calendar (s : String) (h : IsCalendarDate s) :
    ∃ r, timeParse s = some r := by
  obtain ⟨y, m, d, hy, hm1, hm2, hd1, hd2, hs⟩ := h
  have hdays : calendarDays y m ≤ 31 := by
    interval_cases m <;> simp [calendarDays]
    split <;> omega
  have i1 := digitChar_isDigit (y / 1000) (by omega)
  have i2 := digitChar_isDigit (y / 100 % 10) (by omega)
  have i3 := digitChar_isDigit (y / 10 % 10) (by omega)
  have i4 := digitChar_isDigit (y % 10) (by omega)
  have i5 := digitChar_isDigit (m / 10) (by omega)
  have i6 := digitChar_isDigit (m % 10) (by omega)
  have i7 := digitChar_isDigit (d / 10) (by omega)
  have i8 := digitChar_isDigit (d % 10) (by omega)
  have t1 := digitChar_toNat (y / 1000) (by omega)
  have t2 := digitChar_toNat (y / 100 % 10) (by omega)
  have t3 := digitChar_toNat (y / 10 % 10) (by omega)
  have t4 := digitChar_toNat (y % 10) (by omega)
  have t5 := digitChar_toNat (m / 10) (by omega)
  have t6 := digitChar_toNat (m % 10) (by omega)
  have t7 := digitChar_toNat (d / 10) (by omega)
  have t8 := digitChar_toNat (d % 10) (by omega)
  have hyear : decimalValue (fourDigits y) = y := by
    simp only [fourDigits, decimalValue, List.foldl_cons, List.foldl_nil, t1, t2, t3, t4]
    omega
  have hmonth : m / 10 * 10 + m % 10 = m := by omega
  have hday : d / 10 * 10 + d % 10 = d := by omega
  have hdi := daysIn_eq_calendarDays m y hm1 hm2
  have c1 : ¬ (m = 0 ∨ 12 < m) := by omega
  have c2 : ¬ (d < 1 ∨ d > daysIn m y) := by omega
  refine ⟨(y, m, d), ?_⟩
  unfold timeParse
  rw [hs]
  have hy2 : decimalValue [Nat.digitChar (y / 1000), Nat.digitChar (y / 100 % 10),
      Nat.digitChar (y / 10 % 10), Nat.digitChar (y % 10)] = y := hyear
  simp [fourDigits, twoDigits, parseLongYear, skip, getnum, i1, i2, i3, i4, i5, i6, i7, i8,
    t5, t6, t7, t8, hy2, hmonth, hday, c1, c2]
  omega

theorem timeParse_none_of_not_calendar (s : String) (h : ¬ IsCalendarDate s) :
    timeParse s = none := by
  cases hp : timeParse s with
  | none => rfl
  | some r => exact absurd (timeParse_some_calendar s r hp) h

/-! ## Movie creation -/

theorem bindMovieCreate_valid (req : MovieCreate) (h : ValidCreate req) :
    bindMovieCreate (some req) = some req := by
  obtain ⟨ht, hg, hd⟩ := h
  have hdne : req.ReleaseDate ≠ "" := by
    intro he
    obtain ⟨y, m, d, _, _, _, _, _, hs⟩ := hd
    rw [he] at hs
    exact List.noConfusion hs
  have hlen : ¬ req.Title.length < 1 := by
    intro hl
    apply ht
    have h0 : req.Title.length = 0 := by omega
    exact String.ext (List.length_eq_zero.mp h0)
  simp [bindMovieCreate, ht, hg, hdne, hlen]

theorem bindMovieCreate_invalid (req : MovieCreate) (h : req.Title = "" ∨ req.Genre = "") :
    bindMovieCreate (some req) = none := by
  rcases h with h | h
  · simp [bindMovieCreate, h]
  · simp only [bindMovieCreate, h, if_true]
    split <;> rfl

theorem bindMovieCreate_some (body : Option MovieCreate) (req : MovieCreate)
    (h : bindMovieCreate body = some req) : body = some req := by
  unfold bindMovieCreate at h
  split at h
  · exact Option.noConfusion h
  · next r =>
    split at h
    · exact Option.noConfusion h
    · split at h
      · exact Option.noConfusion h
      · split at h
        · exact Option.noConfusion h
        · exact h

theorem CreateMovie_rejects (unmarshal : String → Option BoxOffice) (movies : List Movie)
    (req : MovieCreate) (uuid : String) (now : Nat) (h : ¬ ValidCreate req) :
    MovieHandler.CreateMovie unmarshal movies (some req) uuid now =
      (⟨StatusUnprocessableEntity, "BAD_REQUEST"⟩, movies) := by
  unfold MovieHandler.CreateMovie
  split
  · rfl
  · next createReq hbind =>
    have hreq : some req = some createReq := bindMovieCreate_some _ _ hbind
    have hreq2 : req = createReq := Option.some.inj hreq
    subst hreq2
    by_cases hd : IsCalendarDate req.ReleaseDate
    · exfalso
      apply h
      by_cases ht : req.Title = ""
      · rw [bindMovieCreate_invalid req (Or.inl ht)] at hbind
        exact Option.noConfusion hbind
      · by_cases hg : req.Genre = ""
        · rw [bindMovieCreate_invalid req (Or.inr hg)] at hbind
          exact Option.noConfusion hbind
        · exact ⟨ht, hg, hd⟩
    · rw [timeParse_none_of_not_calendar _ hd]

theorem CreateMovie_duplicate (unmarshal : String → Option BoxOffice) (movies : List Movie)
    (req : MovieCreate) (uuid : String) (now : Nat) (h : ValidCreate req)
    (htitle : ∃ m ∈ movies, m.Title = req.Title) :
    MovieHandler.CreateMovie unmarshal movies (some req) uuid now =
      (⟨StatusBadRequest, "BAD_REQUEST"⟩, movies) := by
  obtain ⟨r, hr⟩ := timeParse_of_calendar req.ReleaseDate h.2.2
  obtain ⟨found, hfound⟩ := GetMovieByTitle_isSome unmarshal movies req.Title htitle
  unfold MovieHandler.CreateMovie
  rw [bindMovieCreate_valid req h]
  simp only [hr, hfound]

/-- C4 (amended): for every create request whose title equals the title of a stored movie, the
create-movie handler stores no new movie; when the request also passes the
checks of the body (title and genre present, release date a valid calendar
date) the answer is the conflict outcome, HTTP 400; when it does not, the
answer is 422. -/
theorem CreateMovie_conflict (unmarshal : String → Option BoxOffice) (movies : List Movie)
    (req : MovieCreate) (uuid : String) (now : Nat)
    (htitle : ∃ m ∈ movies, m.Title = req.Title) :
    (MovieHandler.CreateMovie unmarshal movies (some req) uuid now).2 = movies ∧
    (ValidCreate req →
      MovieHandler.CreateMovie unmarshal movies (some req) uuid now =
        (⟨StatusBadRequest, "BAD_REQUEST"⟩, movies)) ∧
    (¬ ValidCreate req →
      MovieHandler.CreateMovie unmarshal movies (some req) uuid now =
        (⟨StatusUnprocessableEntity, "BAD_REQUEST"⟩, movies)) := by
  refine ⟨?_, fun h => CreateMovie_duplicate unmarshal movies req uuid now h htitle,
    fun h => CreateMovie_rejects unmarshal movies req uuid now h⟩
  by_cases h : ValidCreate req
  · rw [CreateMovie_duplicate unmarshal movies req uuid now h htitle]
  · rw [CreateMovie_rejects unmarshal movies req uuid now h]

/-- C4 (witness): the movie `A` is stored and a valid request carries the title `A` with other
field values. -/
theorem CreateMovie_conflict_witness :
    MovieHandler.CreateMovie (fun _ => none) [exampleMovie "m1" "A" 1]
        (some ⟨"A", "comedy", "2024-02-29", some "Acme", some 5, none⟩) "m2" 9 =
      (⟨StatusBadRequest, "BAD_REQUEST"⟩, [exampleMovie "m1" "A" 1]) :=
  (CreateMovie_conflict (fun _ => none) [exampleMovie "m1" "A" 1]
    ⟨"A", "comedy", "2024-02-29", some "Acme", some 5, none⟩ "m2" 9
    ⟨exampleMovie "m1" "A" 1, List.mem_singleton.mpr rfl, rfl⟩).2.1
    ⟨by decide, by decide, ⟨2024, 2, 29, by decide, by decide, by decide, by decide, by decide,
      by decide⟩⟩

/-- C4 (counterexample): the movie `A` is stored, the request carries the title `A` and the release
date `2024-13-40`: the answer is 422, not the conflict outcome 400. -/
theorem CreateMovie_conflict_invalid_date :
    (∃ m ∈ [exampleMovie "m1" "A" 1],
      m.Title = (⟨"A", "comedy", "2024-13-40", none, none, none⟩ : MovieCreate).Title) ∧
    MovieHandler.CreateMovie (fun _ => none) [exampleMovie "m1" "A" 1]
        (some ⟨"A", "comedy", "2024-13-40", none, none, none⟩) "m2" 9 =
      (⟨StatusUnprocessableEntity, "BAD_REQUEST"⟩, [exampleMovie "m1" "A" 1]) ∧
    (MovieHandler.CreateMovie (fun _ => none) [exampleMovie "m1" "A" 1]
        (some ⟨"A", "comedy", "2024-13-40", none, none, none⟩) "m2" 9).1.status ≠
      StatusBadRequest := by
  refine ⟨⟨exampleMovie "m1" "A" 1, List.mem_singleton.mpr rfl, rfl⟩, by decide, by decide⟩

/-- C7: for every create request whose title is missing or empty, or whose release date
is not a valid calendar date written `YYYY-MM-DD`, the create-movie handler answers 422
`BAD_REQUEST` and the movies table is left as it was, whatever identifier
would have been generated; `2024-13-40` is such a date. -/
theorem CreateMovie_validation (unmarshal : String → Option BoxOffice) (movies : List Movie)
    (req : MovieCreate) (uuid : String) (now : Nat)
    (h : req.Title = "" ∨ ¬ IsCalendarDate req.ReleaseDate) :
    MovieHandler.CreateMovie unmarshal movies (some req) uuid now =
      (⟨StatusUnprocessableEntity, "BAD_REQUEST"⟩, movies) ∧
    ¬ IsCalendarDate "2024-13-40" := by
  constructor
  · apply CreateMovie_rejects
    rintro ⟨ht, _, hd⟩
    rcases h with h | h
    · exact ht h
    · exact h hd
  · intro hd
    obtain ⟨r, hr⟩ := timeParse_of_calendar "2024-13-40" hd
    have hnone : timeParse "2024-13-40" = none := by decide
    rw [hnone] at hr
    exact Option.noConfusion hr

/-- C7 (witness): a request without a title, and a request dated `2024-13-40`. -/
theorem CreateMovie_validation_witness :
    MovieHandler.CreateMovie (fun _ => none) [exampleMovie "m1" "A" 1]
        (some ⟨"", "comedy", "2024-02-29", none, none, none⟩) "m2" 9 =
      (⟨StatusUnprocessableEntity, "BAD_REQUEST"⟩, [exampleMovie "m1" "A" 1]) ∧
    MovieHandler.CreateMovie (fun _ => none) [exampleMovie "m1" "A" 1]
        (some ⟨"B", "comedy", "2024-13-40", none, none, none⟩) "m2" 9 =
      (⟨StatusUnprocessableEntity, "BAD_REQUEST"⟩, [exampleMovie "m1" "A" 1]) :=
  ⟨(CreateMovie_validation (fun _ => none) [exampleMovie "m1" "A" 1]
      ⟨"", "comedy", "2024-02-29", none, none, none⟩ "m2" 9 (Or.inl rfl)).1,
   (CreateMovie_validation (fun _ => none) [exampleMovie "m1" "A" 1]
      ⟨"B", "comedy", "2024-13-40", none, none, none⟩ "m2" 9
      (Or.inr (CreateMovie_validation (fun _ => none) [] ⟨"", "", "", none, none, none⟩ "" 0
        (Or.inl rfl)).2)).1⟩

/-! ## Bearer authentication -/

theorem stringsSplit_ne_nil (sep : Char) (l : List Char) : stringsSplit sep l ≠ [] := by
  cases l with
  | nil => exact List.cons_ne_nil _ _
  | cons c cs =>
    unfold stringsSplit
    split
    · exact List.cons_ne_nil _ _
    · split <;> exact List.cons_ne_nil _ _

theorem stringsSplit_no_sep (sep : Char) (l : List Char) (h : sep ∉ l) :
    stringsSplit sep l = [l] := by
  induction l with
  | nil => rfl
  | cons c cs ih =>
    have hc : c ≠ sep := fun e => h (e ▸ List.mem_cons_self _ _)
    have hcs : sep ∉ cs := fun e => h (List.mem_cons_of_mem _ e)
    unfold stringsSplit
    rw [if_neg hc, ih hcs]

theorem stringsSplit_append (sep : Char) (a b : List Char) (h : sep ∉ a) :
    stringsSplit sep (a ++ sep :: b) = a :: stringsSplit sep b := by
  induction a with
  | nil =>
    rw [List.nil_append, stringsSplit, if_pos rfl]
  | cons c cs ih =>
    have hc : c ≠ sep := fun e => h (e ▸ List.mem_cons_self _ _)
    have hcs : sep ∉ cs := fun e => h (List.mem_cons_of_mem _ e)
    rw [List.cons_append, stringsSplit, if_neg hc, ih hcs]

theorem stringsSplit_single (sep : Char) (l q : List Char) (h : stringsSplit sep l = [q]) :
    l = q := by
  induction l generalizing q with
  | nil =>
    have h2 : [([] : List Char)] = [q] := h
    exact (List.cons.inj h2).1
  | cons c cs ih =>
    unfold stringsSplit at h
    split at h
    · exact absurd (List.cons.inj h).2 (stringsSplit_ne_nil sep cs)
    · split at h
      · next hnil => exact absurd hnil (stringsSplit_ne_nil sep cs)
      · next p ps hps =>
        obtain ⟨h1, h2⟩ := List.cons.inj h
        rw [h2] at hps
        rw [← h1, ih p hps]

theorem stringsSplit_pair (sep : Char) (l p q : List Char)
    (h : stringsSplit sep l = [p, q]) : l = p ++ sep :: q := by
  induction l generalizing p with
  | nil =>
    have h2 : [([] : List Char)] = [p, q] := h
    exact absurd (List.cons.inj h2).2 (List.cons_ne_nil _ _).symm
  | cons c cs ih =>
    unfold stringsSplit at h
    split at h
    · next hc =>
      obtain ⟨h1, h2⟩ := List.cons.inj h
      rw [← h1, hc, stringsSplit_single sep cs q h2]
      rfl
    · split at h
      · next hnil => exact absurd hnil (stringsSplit_ne_nil sep cs)
      · next p2 ps hps =>
        obtain ⟨h1, h2⟩ := List.cons.inj h
        rw [h2] at hps
        rw [← h1, ih p2 hps]
        rfl

theorem AuthMiddleware_exempt (authToken : String) (req : Request)
    (h : req.Method = "GET" ∨ req.Path = "/healthz" ∨
      stringsContains req.Path.toList "/ratings".toList = true) :
    AuthMiddleware authToken req = Outcome.next := by
  unfold AuthMiddleware
  split
  · rfl
  · next hn1 =>
    split
    · rfl
    · next hn2 =>
      exfalso
      rcases h with h | h | h
      · exact hn1 (by simp [h])
      · exact hn1 (by simp [h])
      · exact hn2 h

theorem AuthMiddleware_checked (authToken : String) (req : Request)
    (h1 : req.Method ≠ "GET") (h2 : req.Path ≠ "/healthz")
    (h3 : stringsContains req.Path.toList "/ratings".toList = false) :
    AuthMiddleware authToken req =
      if req.Authorization ≠ "" ∧
          stringsSplit ' ' req.Authorization.toList = ["Bearer".toList, authToken.toList] then
        Outcome.next
      else Outcome.abort StatusUnauthorized "UNAUTHORIZED" := by
  unfold AuthMiddleware
  split
  · next hc =>
    exfalso
    simp only [Bool.or_eq_true, decide_eq_true_eq] at hc
    rcases hc with hc | hc
    · exact h1 hc
    · exact h2 hc
  · split
    · next hc =>
      rw [h3] at hc
      exact absurd hc Bool.false_ne_true
    · split
      · next he => rw [if_neg (fun hh => hh.1 he)]
      · next he =>
        simp only
        generalize stringsSplit ' ' req.Authorization.toList = parts
        split
        · next hc =>
          rw [if_neg]
          rintro ⟨_, hs⟩
          rw [hs] at hc
          simp at hc
        · next hc =>
          rw [if_pos]
          refine ⟨he, ?_⟩
          rcases parts with _ | ⟨p, _ | ⟨q, _ | ⟨r, rest⟩⟩⟩
          · simp at hc
          · simp at hc
          · simp only [Bool.or_eq_true, decide_eq_true_eq, not_or, not_not, List.getD_cons_zero,
              List.getD_cons_succ, ne_eq] at hc
            rw [hc.1.2, hc.2]
          · simp at hc

/-- C6 (amended): every exempt request (method GET, path `/healthz`, or path containing `/ratings`)
proceeds whatever its Authorization header.  Every other request either proceeds
or is answered 401 and aborted; it proceeds only if its Authorization header is
exactly `Bearer ` followed by the configured token, and, for every configured
token without a space, it does proceed with that header. -/
theorem AuthMiddleware_spec (authToken : String) (req : Request) :
    ((req.Method = "GET" ∨ req.Path = "/healthz" ∨
        stringsContains req.Path.toList "/ratings".toList = true) →
      AuthMiddleware authToken req = Outcome.next) ∧
    ((req.Method ≠ "GET" ∧ req.Path ≠ "/healthz" ∧
        stringsContains req.Path.toList "/ratings".toList = false) →
      (AuthMiddleware authToken req = Outcome.next ∨
        AuthMiddleware authToken req = Outcome.abort StatusUnauthorized "UNAUTHORIZED") ∧
      (AuthMiddleware authToken req = Outcome.next →
        req.Authorization = "Bearer " ++ authToken) ∧
      (' ' ∉ authToken.toList → req.Authorization = "Bearer " ++ authToken →
        AuthMiddleware authToken req = Outcome.next)) := by
  refine ⟨AuthMiddleware_exempt authToken req, ?_⟩
  rintro ⟨h1, h2, h3⟩
  rw [AuthMiddleware_checked authToken req h1 h2 h3]
  refine ⟨?_, ?_, ?_⟩
  · split
    · exact Or.inl rfl
    · exact Or.inr rfl
  · intro h
    split at h
    · next hc =>
      have hl := stringsSplit_pair ' ' _ _ _ hc.2
      apply String.ext
      rw [String.data_append]
      exact hl
    · exact Outcome.noConfusion h
  · intro hsp hh
    have hl : req.Authorization.toList = "Bearer".toList ++ ' ' :: authToken.toList := by
      rw [hh]
      show ("Bearer " ++ authToken).data = _
      rw [String.data_append]
      rfl
    have hne : req.Authorization ≠ "" := by
      intro he
      rw [he] at hl
      exact List.noConfusion hl
    have hsplit : stringsSplit ' ' req.Authorization.toList =
        ["Bearer".toList, authToken.toList] := by
      rw [hl, stringsSplit_append ' ' _ _ (by decide), stringsSplit_no_sep ' ' _ hsp]
    rw [if_pos ⟨hne, hsplit⟩]

/-- C6 (witness): a POST to `/movies` with the token `secret`, and a POST to a ratings path
without any header. -/
theorem AuthMiddleware_spec_witness :
    AuthMiddleware "secret" ⟨"POST", "/movies", "Bearer secret"⟩ = Outcome.next ∧
    AuthMiddleware "secret" ⟨"POST", "/movies/A/ratings", ""⟩ = Outcome.next :=
  ⟨((AuthMiddleware_spec "secret" ⟨"POST", "/movies", "Bearer secret"⟩).2
      ⟨by decide, by decide, by decide⟩).2.2 (by decide) rfl,
   (AuthMiddleware_spec "secret" ⟨"POST", "/movies/A/ratings", ""⟩).1
      (Or.inr (Or.inr (by decide)))⟩

/-- C6 (counterexample): with the configured token `a b` a POST to `/movies` whose Authorization
header is exactly `Bearer a b` is answered 401 and aborted. -/
theorem AuthMiddleware_token_with_space :
    (⟨"POST", "/movies", "Bearer a b"⟩ : Request).Authorization = "Bearer " ++ "a b" ∧
    AuthMiddleware "a b" ⟨"POST", "/movies", "Bearer a b"⟩ =
      Outcome.abort StatusUnauthorized "UNAUTHORIZED" ∧
    ¬ (AuthMiddleware "a b" ⟨"POST", "/movies", "Bearer a b"⟩ = Outcome.next ↔
        (⟨"POST", "/movies", "Bearer a b"⟩ : Request).Authorization = "Bearer " ++ "a b") := by
  refine ⟨by decide, by decide, ?_⟩
  intro h
  have hnext := h.mpr (by decide)
  revert hnext
  decide

end MovieApp
